import Mathlib

/-!
Verification of the sampling, alignment, resume and streaming-decode logic of
`audiotools/data/datasets.py` (AudioLoader, align_lists, AudioDataset,
ConcatDataset, resumable samplers, decode_audiosignal), via a shallow
embedding.  Durations and sample values are rationals; machine integers are
Nat/Int; Python exceptions are an explicit error type threaded with `Except`.
External collaborators (the numpy random generator, the audio codec, the
excerpt search, the weighted draw) are not part of the source file; they are
modelled from the spec where noted and kept abstract (fields of a `World`
record) where the claims do not depend on their internals.
-/

/-- Python `int()` on a rational: truncation toward zero. -/
def pyInt (q : ℚ) : ℤ :=
  if q < 0 then -(Rat.floor (-q)) else Rat.floor q

/-- Evenness test on integers, used by the rounding model. -/
def evenInt (n : ℤ) : Bool := n % 2 = 0

/-- Python `round()` on a rational: nearest integer, ties to even. -/
def pyRound (q : ℚ) : ℤ :=
  if q - Rat.ofInt (Rat.floor q) < mkRat 1 2 then Rat.floor q
  else if mkRat 1 2 < q - Rat.ofInt (Rat.floor q) then Rat.floor q + 1
  else if evenInt (Rat.floor q) then Rat.floor q else Rat.floor q + 1

/-- Modelled from the spec: the seeded random generator
(`util.random_state` returns a numpy `RandomState`).  The generator is a pure
value; consuming entropy returns the drawn number and the advanced state, so
all randomness is an explicit function of the seed. -/
structure RandomState where
  state : Nat
deriving DecidableEq, Repr

/-- Modelled from the spec: drawing one machine word from the seeded
generator (a 64-bit linear congruential step). -/
def RandomState.next (g : RandomState) : Nat × RandomState :=
  let s := (6364136223846793005 * g.state + 1442695040888963407) % 18446744073709551616
  (s, ⟨s⟩)

/-- Modelled from the spec: `util.random_state seed` seeds a fresh generator
from an integer. -/
def random_state (seed : Nat) : RandomState := ⟨seed⟩

/-- Removal of the element at position `n` (used by the shuffle model). -/
def removeAt (n : Nat) (l : List α) : List α :=
  l.take n ++ l.drop (n + 1)

/-- Modelled from the spec: the seeded in-place shuffle
(`state.shuffle(xs)` permutes `xs` using the seeded generator).  A
Fisher-Yates draw-and-remove loop; returns the permuted list and the advanced
generator. -/
def shuffleAux : Nat → RandomState → List α → List α → List α × RandomState
  | 0, g, rest, acc => (rest ++ acc, g)
  | fuel + 1, g, rest, acc =>
    match rest with
    | [] => (acc, g)
    | x :: xs =>
      shuffleAux fuel (g.next).2 (removeAt ((g.next).1 % (xs.length + 1)) (x :: xs))
        (((x :: xs).getD ((g.next).1 % (xs.length + 1)) x) :: acc)

/-- Modelled from the spec: shuffle a whole list with the seeded generator. -/
def shuffleList (g : RandomState) (l : List α) : List α × RandomState :=
  shuffleAux l.length g l []

/-- A metadata value: catalog records and signal metadata hold strings or
numbers. -/
inductive MetaVal where
  | str (s : String)
  | rat (q : ℚ)
deriving DecidableEq, Repr

/-- An item record of a catalog: `{path: string, ...metadata fields}`. -/
structure Item where
  path : String
  fields : List (String × MetaVal) := []
deriving DecidableEq, Repr

/-- The sentinel item `{"path": "none"}`. -/
def sentinelItem : Item := { path := "none" }

/-- The key/value pairs of an item record, as iterated by
`for k, v in audio_info.items()` (the `path` key first). -/
def Item.entries (it : Item) : List (String × MetaVal) :=
  ("path", MetaVal.str it.path) :: it.fields

/-- The flattened `(source_idx, item_idx)` enumeration built by
`AudioLoader.__init__`:
`[(src_idx, item_idx) for src_idx, src in enumerate(lists) for item_idx in range(len(src))]`. -/
def flatIndices (lists : List (List Item)) : List (Nat × Nat) :=
  (List.range lists.length).flatMap
    (fun si => (List.range (lists.getD si []).length).map (fun ii => (si, ii)))

/-- The state of an `AudioLoader` after `__init__`: per-source catalogs, the
(possibly shuffled) flattened index list, the source names and weights, and
whether a transform is configured. -/
structure AudioLoader where
  sources : List String
  audio_lists : List (List Item)
  audio_indices : List (Nat × Nat)
  weights : List ℚ := []
  hasTransform : Bool := false
deriving Repr

/-- `AudioLoader.__init__`: catalogs are built by the external discovery
collaborator (`util.read_sources`), so construction takes the discovered
`(source, catalog)` pairs; the flattened index list is shuffled with the
seeded generator when `shuffle` is set. -/
def mkLoader (srcs : List (String × List Item)) (shuffle : Bool)
    (shuffle_state : Nat) (hasTransform : Bool := false) : AudioLoader :=
  let lists := srcs.map Prod.snd
  { sources := srcs.map Prod.fst
    audio_lists := lists
    audio_indices :=
      if shuffle then (shuffleList (random_state shuffle_state) (flatIndices lists)).1
      else flatIndices lists
    hasTransform := hasTransform }

/-- Resolution of a `global_idx` in `AudioLoader.__call__`:
`self.audio_indices[global_idx % len(self.audio_indices)]`. -/
def resolveGlobal (L : AudioLoader) (gidx : Nat) : Nat × Nat :=
  L.audio_indices.getD (gidx % L.audio_indices.length) (0, 0)

/-- Python exception values raised or caught by the embedded code.  The
recognized-failure classification in the source matches on the exception
class and on English substrings of its message, so the message is carried. -/
inductive PyErr where
  | libsndfileError (msg : String)
  | runtimeError (msg : String)
  | valueError (msg : String)
  | indexError
  | keyError (k : String)
  | zeroDivisionError
deriving DecidableEq, Repr

/-- Whether `small` occurs as a contiguous substring of `big` starting at the
front (helper for the Python `in` test on strings). -/
def listStarts : List Char → List Char → Bool
  | [], _ => true
  | _ :: _, [] => false
  | a :: as, b :: bs => a = b && listStarts as bs

/-- Whether `n` occurs as a contiguous sublist of `l`. -/
def listHasSub (n : List Char) : List Char → Bool
  | [] => listStarts n []
  | b :: bs => listStarts n (b :: bs) || listHasSub n bs

/-- Python `needle in hay` on strings: substring containment. -/
def containsSub (needle hay : String) : Bool :=
  listHasSub needle.toList hay.toList

/-- The tensor-shape-mismatch marker matched against error messages in both
decode paths of the source. -/
def tensorMismatchMsg : String :=
  "The size of tensor a (5) must match the size of tensor b (6) at non-singleton dimension 1"

/-- The offline loader's recognized decode failures: the `except` clause
catches `(RuntimeError, soundfile.LibsndfileError)` and recovers exactly when
the exception is a `LibsndfileError` or its message contains the
tensor-mismatch marker or `"is empty!"`; everything else propagates. -/
def recognizedOffline : PyErr → Bool
  | PyErr.libsndfileError _ => true
  | PyErr.runtimeError m =>
      containsSub tensorMismatchMsg m || containsSub "is empty!" m
  | _ => false

/-- The streaming decoder's recognized failures: the `except` clause catches
`(RuntimeError, soundfile.LibsndfileError, ValueError)` and recovers exactly
when the exception is a `LibsndfileError` or its message contains the
tensor-mismatch marker, `"is empty!"` or `"array is too big"`. -/
def recognizedStreaming : PyErr → Bool
  | PyErr.libsndfileError _ => true
  | PyErr.runtimeError m =>
      containsSub tensorMismatchMsg m || containsSub "is empty!" m ||
        containsSub "array is too big" m
  | PyErr.valueError m =>
      containsSub tensorMismatchMsg m || containsSub "is empty!" m ||
        containsSub "array is too big" m
  | _ => false

/-- An `AudioSignal`: native sample rate, length in samples (the tensor's
last dimension), per-channel sample data and a string-keyed metadata map.
The codec itself is external; this record is what the embedded code
manipulates through the external primitives below. -/
structure Signal where
  rate : Nat
  length : Nat
  data : List (List ℚ)
  metadata : List (String × MetaVal) := []
deriving DecidableEq, Repr

/-- `signal.duration = signal_length / sample_rate`. -/
def Signal.duration (s : Signal) : ℚ := mkRat s.length s.rate

/-- Modelled from the spec: `AudioSignal.zeros(duration, sample_rate,
num_channels)` is a zero-valued signal of the exact requested
duration/rate/channel count (`round(duration*sample_rate)` samples). -/
def Signal.zeros (d : ℚ) (sr nc : Nat) : Signal :=
  let n := (pyRound (d * sr)).toNat
  { rate := sr, length := n, data := List.replicate nc (List.replicate n 0) }

/-- Pointwise sum of the channels of a signal. -/
def sumChannels : List (List ℚ) → List ℚ
  | [] => []
  | [c] => c
  | c :: rest => List.zipWith (· + ·) c (sumChannels rest)

/-- Modelled from the spec: `signal.to_mono()` downmixes to one channel
(energy-weighted mix, modelled as the channel mean). -/
def Signal.toMono (s : Signal) : Signal :=
  { s with data := [(sumChannels s.data).map (fun v => Rat.div v (mkRat s.data.length 1))] }

/-- Modelled from the spec: `signal.to_rand_mono()` keeps a single channel
chosen by the (external) randomness; modelled as the first channel. -/
def Signal.toRandMono (s : Signal) : Signal :=
  { s with data := [s.data.getD 0 []] }

/-- One channel after resampling (sample-and-hold interpolation model). -/
def resampleChannel (srcRate dstRate n : Nat) (ch : List ℚ) : List ℚ :=
  (List.range (n * dstRate / srcRate)).map (fun i => ch.getD (i * srcRate / dstRate) 0)

/-- Modelled from the spec: `signal.resample(sr)` is an external primitive;
it is the identity when the rate already matches, and otherwise rescales the
sample count by `sr / rate`. -/
def Signal.resample (s : Signal) (sr : Nat) : Signal :=
  if s.rate = sr then s
  else
    { s with
      rate := sr
      length := s.length * sr / s.rate
      data := s.data.map (resampleChannel s.rate sr s.length) }

/-- Modelled from the spec: `signal.zero_pad_to(n)` zero-fills the trailing
edge up to `n` samples (a no-op on signals already at least that long). -/
def Signal.zeroPadTo (s : Signal) (n : Nat) : Signal :=
  { s with
    length := max s.length n
    data := s.data.map (fun ch => ch ++ List.replicate (n - ch.length) 0) }

/-- Writing one metadata key (Python dict update: overwrite in place or
append at the end). -/
def setMeta (m : List (String × MetaVal)) (k : String) (v : MetaVal) :
    List (String × MetaVal) :=
  if (m.map Prod.fst).contains k then
    m.map (fun p => if p.1 = k then (k, v) else p)
  else m ++ [(k, v)]

/-- Reading one metadata key (Python `signal.metadata[k]`). -/
def Signal.getMeta (s : Signal) (k : String) : Option MetaVal :=
  (s.metadata.find? (fun p => p.1 = k)).map Prod.snd

/-- Copying every catalog field onto the signal metadata
(`for k, v in audio_info.items(): signal.metadata[k] = v`). -/
def Signal.copyMeta (s : Signal) (it : Item) : Signal :=
  { s with metadata := it.entries.foldl (fun m kv => setMeta m kv.1 kv.2) s.metadata }

/-- The external collaborators invoked by the loader and the streaming
decoder, kept abstract: the claims hold for every behaviour of these
functions.  `excerpt` is `AudioSignal.salient_excerpt(path, duration, state,
loudness_cutoff)` (returns the found excerpt and the advanced state, or
raises); `read` is `AudioSignal(path, offset=..., duration=...)`; `choose` is
`util.choose_from_list_of_lists(state, lists, p=weights)`. -/
structure World where
  excerpt : String → ℚ → RandomState → ℚ → Except PyErr (Signal × RandomState)
  read : String → ℚ → ℚ → Except PyErr Signal
  choose : RandomState → List (List Item) → List ℚ →
    Except PyErr (Item × Nat × Nat × RandomState)

/-- The keyword arguments of `AudioLoader.__call__`. -/
structure LoaderArgs where
  sample_rate : Nat
  duration : ℚ
  loudness_cutoff : ℚ := -40
  num_channels : Nat := 1
  offset : Option ℚ := none
  source_idx : Option Nat := none
  item_idx : Option Nat := none
  global_idx : Option Nat := none
deriving DecidableEq, Repr

/-- The result of one loader call:
`{signal, source_idx, item_idx, source, path, [transform_args]}`. -/
structure Sample where
  signal : Signal
  source_idx : Nat
  item_idx : Nat
  source : String
  path : String
  transform_args : Option Nat := none
deriving DecidableEq, Repr

/-- The selection step of `AudioLoader.__call__`: explicit
`(source_idx, item_idx)` with a bare-`except` fallback to the sentinel,
else `global_idx` modulo the flattened list, else the external weighted
draw. -/
def AudioLoader.resolve (L : AudioLoader) (w : World) (st : RandomState)
    (a : LoaderArgs) : Except PyErr (Item × Nat × Nat × RandomState) :=
  match a.source_idx, a.item_idx with
  | some si, some ii =>
    match L.audio_lists.get? si with
    | none => Except.ok (sentinelItem, si, ii, st)
    | some cat =>
      match cat.get? ii with
      | none => Except.ok (sentinelItem, si, ii, st)
      | some it => Except.ok (it, si, ii, st)
  | _, _ =>
    match a.global_idx with
    | some gi =>
      if L.audio_indices.length = 0 then Except.error PyErr.zeroDivisionError
      else
        let p := resolveGlobal L gi
        match (L.audio_lists.get? p.1).bind (fun cat => cat.get? p.2) with
        | none => Except.error PyErr.indexError
        | some it => Except.ok (it, p.1, p.2, st)
    | none => w.choose st L.audio_lists L.weights

/-- The post-selection pipeline of `AudioLoader.__call__`: downmix to mono
when one channel is requested, resample to the target rate, and zero-pad to
`int(duration * sample_rate)` when the decoded duration falls short. -/
def postProcess (sig : Signal) (sr nc : Nat) (d : ℚ) : Signal :=
  let s1 := if nc = 1 then sig.toMono else sig
  let s2 := s1.resample sr
  if s2.duration < d then s2.zeroPadTo (pyInt (d * sr)).toNat else s2

/-- The decode step of `AudioLoader.__call__`: the signal starts as silence;
for a non-sentinel path, either run the excerpt search (catching recognized
failures and keeping the silence) or, when an explicit offset is forced,
read a fixed window with no exception handler at all. -/
def loaderDecode (w : World) (path : String) (a : LoaderArgs)
    (st1 : RandomState) : Except PyErr (Signal × RandomState) :=
  if path ≠ "none" then
    match a.offset with
    | none =>
      match w.excerpt path a.duration st1 a.loudness_cutoff with
      | Except.ok (sig, st2) => Except.ok (sig, st2)
      | Except.error e =>
        if recognizedOffline e then
          Except.ok (Signal.zeros a.duration a.sample_rate a.num_channels, st1)
        else Except.error e
    | some off =>
      match w.read path off a.duration with
      | Except.ok sig => Except.ok (sig, st1)
      | Except.error e => Except.error e
  else Except.ok (Signal.zeros a.duration a.sample_rate a.num_channels, st1)

/-- The unguarded `str(self.sources[source_idx])` lookup of
`AudioLoader.__call__`: raises `IndexError` past the end. -/
def sourceLookup (L : AudioLoader) (si : Nat) : Except PyErr String :=
  match L.sources.get? si with
  | some s => Except.ok s
  | none => Except.error PyErr.indexError

/-- The transform instantiation of `AudioLoader.__call__`, modelled as one
draw from the state when a transform is configured. -/
def transformStep (L : AudioLoader) (st2 : RandomState) : Option Nat × RandomState :=
  if L.hasTransform then (some (st2.next).1, (st2.next).2) else (none, st2)

/-- `AudioLoader.__call__`: resolve the item, decode (or substitute silence
for a sentinel or for a recognized decode failure), post-process, copy the
catalog metadata, and assemble the result record. -/
def AudioLoader.call (L : AudioLoader) (w : World) (st : RandomState)
    (a : LoaderArgs) : Except PyErr (Sample × RandomState) := do
  let (info, si, ii, st1) ← L.resolve w st a
  let (sig1, st2) ← loaderDecode w info.path a st1
  let source ← sourceLookup L si
  Except.ok ({ signal := (postProcess sig1 a.sample_rate a.num_channels a.duration).copyMeta info
               source_idx := si
               item_idx := ii
               source := source
               path := info.path
               transform_args := (transformStep L st2).1 }, (transformStep L st2).2)

/-- Index of the first maximum (`np.argmax` over the list lengths). -/
def argmaxAux : List Nat → Nat → Nat → Nat → Nat
  | [], _, _, bi => bi
  | x :: xs, i, best, bi =>
    if best < x then argmaxAux xs (i + 1) x i else argmaxAux xs (i + 1) best bi

/-- `np.argmax` on a list of naturals (first index attaining the maximum). -/
def pyArgmax (l : List Nat) : Nat :=
  match l with
  | [] => 0
  | x :: xs => argmaxAux xs 1 x 0

/-- Python `l.insert(n, a)`: insertion before position `n` (append when `n`
is past the end). -/
def pyInsert (n : Nat) (a : α) (l : List α) : List α :=
  l.take n ++ a :: l.drop n

/-- Modelled from the spec: the default matcher compares the parent
directories of the two paths (`Path(x).parent == Path(y).parent`). -/
def pathParent (p : String) : String :=
  let parts := p.splitOn "/"
  if parts.length ≤ 1 then "." else String.intercalate "/" parts.dropLast

/-- `default_matcher(x, y)`: same parent directory. -/
def default_matcher (x y : String) : Bool := pathParent x = pathParent y

/-- The inner `for l in lists` loop body of `align_lists` at reference
position `i` with reference entry `x` (captured before the inner loop runs):
append a sentinel to lists that are too short, insert a sentinel at `i` in
lists whose entry fails the matcher against `x`. -/
def alignInner (matcher : String → String → Bool) (i : Nat) (x : Item)
    (state : List (List Item)) : List (List Item) :=
  state.map (fun l =>
    if l.length ≤ i then l ++ [sentinelItem]
    else if ¬ matcher ((l.getD i sentinelItem).path) x.path then pyInsert i sentinelItem l
    else l)

/-- The outer `for i, x in enumerate(longest_list)` loop of `align_lists`.
The iteration is live over the reference list (index `r` of the state); the
fuel equals the initial reference length, which is exact: the reference can
only grow when the matcher rejects an entry against itself, and then it grows
at every later step as well, so the Python loop never terminates — `none`
marks exactly those diverging runs. -/
def alignLoop (matcher : String → String → Bool) (r : Nat) :
    Nat → Nat → List (List Item) → Option (List (List Item))
  | 0, i, state => if i < (state.getD r []).length then none else some state
  | fuel + 1, i, state =>
    if i < (state.getD r []).length then
      alignLoop matcher r fuel (i + 1)
        (alignInner matcher i ((state.getD r []).getD i sentinelItem) state)
    else some state

/-- `align_lists(lists, matcher)`: pick the first-longest catalog as the
(live, aliased) reference and run the alignment loop.  In-place list
mutation is modelled by threading the list of catalogs as state. -/
def align_lists (lists : List (List Item))
    (matcher : String → String → Bool) : Option (List (List Item)) :=
  let r := pyArgmax (lists.map List.length)
  alignLoop matcher r (lists.getD r []).length 0 lists

/-- The per-loader result map plus the item index, the output of
`AudioDataset.__getitem__` (the single-loader flattening of the Python dict
is a representation detail of the output mapping and is not re-encoded). -/
structure DatasetItem where
  samples : List (String × Sample)
  idx : Nat
  transform_args : Option Nat := none
deriving DecidableEq, Repr

/-- `AudioDataset` state after `__init__` (the ordered name-to-loader
mapping; the constructor alignment of the catalogs is `align_lists`,
modelled separately). -/
structure AudioDataset where
  loaders : List (String × AudioLoader)
  sample_rate : Nat
  duration : ℚ
  offset : Option ℚ := none
  loudness_cutoff : ℚ := -40
  num_channels : Nat := 1
  hasTransform : Bool := false
  aligned : Bool := false
  shuffle_loaders : Bool := false
  without_replacement : Bool := true
  length : Nat := 1000

/-- Dictionary lookup `self.loaders[key]`. -/
def AudioDataset.loaderOf (ds : AudioDataset) (k : String) :
    Except PyErr AudioLoader :=
  match ds.loaders.find? (fun p => p.1 = k) with
  | some p => Except.ok p.2
  | none => Except.error (PyErr.keyError k)

/-- The `for key in keys[1:]` loop of `AudioDataset.__getitem__`: when
`aligned` is set, re-point the kwargs at the offset recorded in the first
sample's metadata and at the first sample's `(source_idx, item_idx)`; call
each loader with the current kwargs, threading the random state.  The log
records, per call, the key, the exact kwargs the loader was invoked with,
and the sample it returned. -/
def dsLoop (w : World) (ds : AudioDataset) (first : Sample) :
    LoaderArgs → RandomState → List String →
    Except PyErr (List (String × LoaderArgs × Sample) × RandomState)
  | _, st, [] => Except.ok ([], st)
  | curArgs, st, k :: ks => do
    let L ← ds.loaderOf k
    let args ←
      if ds.aligned then
        match first.signal.getMeta "offset" with
        | some (MetaVal.rat off) =>
          Except.ok { curArgs with
            offset := some off
            source_idx := some first.source_idx
            item_idx := some first.item_idx }
        | some (MetaVal.str _) => Except.error (PyErr.valueError "offset")
        | none => Except.error (PyErr.keyError "offset")
      else Except.ok curArgs
    let (s, st1) ← L.call w st args
    let (rest, st2) ← dsLoop w ds first args st1 ks
    Except.ok ((k, args, s) :: rest, st2)

/-- Re-sorting the collected samples into the declared loader order
(`item = {k: item[k] for k in keys}`). -/
def sortSamples (keys : List String)
    (lg : List (String × LoaderArgs × Sample)) :
    Except PyErr (List (String × Sample)) :=
  match keys with
  | [] => Except.ok []
  | k :: ks =>
    match lg.find? (fun e => e.1 = k) with
    | none => Except.error (PyErr.keyError k)
    | some e => do
      let rest ← sortSamples ks lg
      Except.ok ((k, e.2.2) :: rest)

/-- `AudioDataset.__getitem__(idx)` with a call log: derive a fresh state
from `idx` alone, optionally shuffle the call order, draw from the first
loader (passing `global_idx = idx` under without-replacement sampling and no
offset), run the remaining loaders through `dsLoop`, re-sort into declared
order and attach `idx` and the dataset-level transform arguments (the
transform instantiation is modelled as one draw from the state). -/
def AudioDataset.getItemLog (ds : AudioDataset) (w : World) (idx : Nat) :
    Except PyErr (DatasetItem × List (String × LoaderArgs × Sample)) := do
  let st := random_state idx
  let keys0 := ds.loaders.map Prod.fst
  let (keys, st1) := if ds.shuffle_loaders then shuffleList st keys0 else (keys0, st)
  match keys with
  | [] => Except.error PyErr.indexError
  | k0 :: rest => do
    let L0 ← ds.loaderOf k0
    let baseArgs : LoaderArgs :=
      { sample_rate := ds.sample_rate
        duration := ds.duration
        loudness_cutoff := ds.loudness_cutoff
        num_channels := ds.num_channels
        global_idx := if ds.without_replacement then some idx else none }
    let (s0, st2) ← L0.call w st1 baseArgs
    let (lg, st3) ← dsLoop w ds s0 baseArgs st2 rest
    let fullLog := (k0, baseArgs, s0) :: lg
    let samples ← sortSamples keys0 fullLog
    let targs :=
      if ds.hasTransform then some (st3.next).1 else none
    Except.ok ({ samples := samples, idx := idx, transform_args := targs }, fullLog)

/-- `AudioDataset.__getitem__` proper (the log projected away). -/
def AudioDataset.getItem (ds : AudioDataset) (w : World) (idx : Nat) :
    Except PyErr DatasetItem :=
  (ds.getItemLog w idx).map Prod.fst

/-- A member dataset of a `ConcatDataset`: a reported length and an
unchecked item lookup (`AudioDataset.__getitem__` never bounds-checks, its
length being virtual). -/
structure MemberDataset (α : Type) where
  length : Nat
  get : Nat → α

/-- `ConcatDataset` over its member datasets. -/
structure ConcatDataset (α : Type) where
  datasets : List (MemberDataset α)

/-- `ConcatDataset.__len__`: the sum of the member lengths. -/
def ConcatDataset.len (c : ConcatDataset α) : Nat :=
  (c.datasets.map MemberDataset.length).sum

/-- `ConcatDataset.__getitem__(idx)`: route to dataset `idx % count` with
inner index `idx // count` (`none` models the `ZeroDivisionError` on an
empty member list). -/
def ConcatDataset.getItem (c : ConcatDataset α) (idx : Nat) : Option α :=
  if c.datasets.length = 0 then none
  else (c.datasets.get? (idx % c.datasets.length)).map
    (fun d => d.get (idx / c.datasets.length))

/-- `ResumableSequentialSampler` state: the wrapped deterministic index
sequence (`SequentialSampler` yields `range(len(dataset))`) and the mutable
one-time skip counter. -/
structure ResumableSequential where
  seq : List Nat
  start_idx : Nat

/-- Construction over a dataset of the given length with an optional resume
index. -/
def mkResumableSequential (datasetLen : Nat) (start : Option Nat) :
    ResumableSequential :=
  { seq := List.range datasetLen, start_idx := start.getD 0 }

/-- One full `__iter__` pass: skip the first `start_idx` positions, then
reset the counter to 0 for the next epoch. -/
def ResumableSequential.iterOnce (s : ResumableSequential) :
    List Nat × ResumableSequential :=
  (s.seq.drop s.start_idx, { s with start_idx := 0 })

/-- `ResumableDistributedSampler` state: the wrapped per-replica index
sequence (the replica's shard of the shared seeded shuffle, produced by the
external `DistributedSampler`) and the skip counter. -/
structure ResumableDistributed where
  seq : List Nat
  num_replicas : Nat
  start_idx : Nat

/-- Construction: `start_idx` arrives in global-sample units and is divided
by the replica count (`start_idx // self.num_replicas`). -/
def mkResumableDistributed (shard : List Nat) (numReplicas : Nat)
    (start : Option Nat) : ResumableDistributed :=
  { seq := shard, num_replicas := numReplicas
    start_idx := match start with | some k => k / numReplicas | none => 0 }

/-- One full `__iter__` pass of the distributed variant. -/
def ResumableDistributed.iterOnce (s : ResumableDistributed) :
    List Nat × ResumableDistributed :=
  (s.seq.drop s.start_idx, { s with start_idx := 0 })

/-- `util.AUDIO_EXTENSIONS`. -/
def AUDIO_EXTENSIONS : List String := [".wav", ".flac", ".mp3", ".mp4"]

/-- `"." + re.sub(r".*[.]", "", key)`: the text after the last dot, with a
dot put back in front. -/
def keyExtension (k : String) : String :=
  "." ++ (k.splitOn ".").getLastD k

/-- One grouped sample of the stream: the container entries, keyed by name;
blobs are abstract handles decoded by the external codec. -/
structure StreamSample where
  entries : List (String × Nat)
deriving DecidableEq, Repr

/-- The audio-key search of `decode_audiosignal`: the first entry whose
extension is in the allow-list. -/
def findAudioKey (s : StreamSample) : Option (String × Nat) :=
  s.entries.find? (fun kv => AUDIO_EXTENSIONS.contains (keyExtension kv.1))

/-- One yielded record of the streaming decoder: the non-audio entries of
the grouped sample plus the decoded excerpt (`{**sample, "signal": signal}`
after `del sample[key]`). -/
structure OutSample where
  meta : List (String × Nat)
  signal : Signal
deriving DecidableEq, Repr

/-- The streaming post-processing: mono downmix (random-channel variant per
flag), resample, zero-pad to `int(duration * sample_rate)` when short. -/
def streamPost (d : ℚ) (sr nc : Nat) (randMono : Bool) (g : Signal) : Signal :=
  let s1 := if nc = 1 then (if randMono then g.toRandMono else g.toMono) else g
  let s2 := s1.resample sr
  if s2.duration < d then s2.zeroPadTo (pyInt (d * sr)).toNat else s2

/-- `decode_audiosignal`: walk the grouped samples; entries without an audio
key are skipped with a warning; the external multi-excerpt decode (`dec`,
standing for `AudioSignal.salient_excerpts` on the entry's blob) may fail —
recognized failures skip the entry, anything else terminates the generator
with that exception after the records already yielded.  Each decoded excerpt
becomes one output record carrying the remaining entries of its group. -/
def decode_audiosignal (dec : Nat → Except PyErr (List Signal)) (d : ℚ)
    (sr nc : Nat) (randMono : Bool) :
    List StreamSample → List OutSample × Option PyErr
  | [] => ([], none)
  | s :: rest =>
    match findAudioKey s with
    | none => decode_audiosignal dec d sr nc randMono rest
    | some (key, blob) =>
      match dec blob with
      | Except.error e =>
        if recognizedStreaming e then decode_audiosignal dec d sr nc randMono rest
        else ([], some e)
      | Except.ok sigs =>
        let meta := s.entries.filter (fun kv => kv.1 ≠ key)
        let outs := sigs.map (fun g => { meta := meta, signal := streamPost d sr nc randMono g : OutSample })
        let (ros, rerr) := decode_audiosignal dec d sr nc randMono rest
        (outs ++ ros, rerr)

/-- A one-item catalog entry used by the concrete instances. -/
def demoItemA : Item := { path := "spk/a.wav" }

/-- A concrete discovered source set: one source with one item. -/
def demoCatalogs : List (String × List Item) := [("spk", [demoItemA])]

/-- A concrete loader over `demoCatalogs`, unshuffled. -/
def demoLoader : AudioLoader := mkLoader demoCatalogs false 0

/-- A concrete decoded excerpt: four samples at rate 4, offset recorded. -/
def demoSignal4 : Signal :=
  { rate := 4, length := 4, data := [[1, 1, 1, 1]]
    metadata := [("offset", MetaVal.rat 0)] }

/-- A concrete external world: the excerpt search and the windowed read
succeed on `spk/a.wav` and fail elsewhere; the weighted draw picks the first
item. -/
def demoWorld : World :=
  { excerpt := fun path _d st _lc =>
      if path = "spk/a.wav" then Except.ok (demoSignal4, st)
      else Except.error (PyErr.runtimeError "missing")
    read := fun path _off _d =>
      if path = "spk/a.wav" then
        Except.ok { rate := 4, length := 4, data := [[1, 1, 1, 1]] }
      else Except.error (PyErr.runtimeError "missing")
    choose := fun st lists _w =>
      match (lists.get? 0).bind (fun c => c.get? 0) with
      | some it => Except.ok (it, 0, 0, st)
      | none => Except.error PyErr.indexError }

/-- Concrete call arguments selecting `global_idx = 0`. -/
def demoArgs : LoaderArgs := { sample_rate := 4, duration := 1, global_idx := some 0 }

/-- A two-source catalog set with three items overall. -/
def c2Catalogs : List (String × List Item) :=
  [("s0", [demoItemA]), ("s1", [{ path := "s1/b.wav" }, { path := "s1/c.wav" }])]

/-- A two-loader aligned dataset over the demo catalogs. -/
def demoDataset : AudioDataset :=
  { loaders := [("vocals", demoLoader), ("drums", mkLoader demoCatalogs false 0)]
    sample_rate := 4
    duration := 1
    aligned := true }

/-- Three parallel two-item catalogs with pairwise distinct parent
directories, the concrete input refuting the alignment claim. -/
def c3Lists : List (List Item) :=
  [[{ path := "x/a" }, { path := "x/b" }],
   [{ path := "y/c" }, { path := "y/d" }],
   [{ path := "z/e" }, { path := "z/f" }]]

/-- The property claimed of `align_lists` output: all catalogs of equal
length, and the matcher holding on every pair of non-sentinel entries in the
same position. -/
def c3ClaimHolds (matcher : String → String → Bool)
    (ls : List (List Item)) : Bool :=
  (ls.all (fun l1 => ls.all (fun l2 => l1.length = l2.length))) &&
  ((List.range ((ls.map List.length).foldr max 0)).all (fun i =>
    ls.all (fun l1 => ls.all (fun l2 =>
      match l1.get? i, l2.get? i with
      | some e1, some e2 =>
        if e1.path ≠ "none" && e2.path ≠ "none" then matcher e1.path e2.path else true
      | _, _ => true))))

/-- A single-item catalog whose file decodes to one sample at rate 3. -/
def c5Loader : AudioLoader := mkLoader [("s", [{ path := "short.wav" }])] false 0

/-- A world whose excerpt search finds a one-sample window (a file much
shorter than the requested duration). -/
def c5World : World :=
  { excerpt := fun path _d st _lc =>
      if path = "short.wav" then
        Except.ok ({ rate := 3, length := 1, data := [[1]] }, st)
      else Except.error (PyErr.runtimeError "missing")
    read := fun _p _o _d => Except.error (PyErr.runtimeError "missing")
    choose := fun st _l _w => Except.ok (sentinelItem, 0, 0, st) }

/-- Arguments with `duration * sample_rate = 2.7`, separating `round` (3)
from `int` (2). -/
def c5Args : LoaderArgs := { sample_rate := 3, duration := mkRat 9 10, global_idx := some 0 }

/-- The recognized-failure class as the claim states it: corrupt stream
(libsndfile error), empty file, or the pathological tensor-shape mismatch —
with no oversized-array kind. -/
def claimedRecognizedC7 : PyErr → Bool
  | PyErr.libsndfileError _ => true
  | PyErr.runtimeError m =>
      containsSub tensorMismatchMsg m || containsSub "is empty!" m
  | PyErr.valueError m =>
      containsSub tensorMismatchMsg m || containsSub "is empty!" m
  | _ => false

/-- The numpy oversized-array failure raised through the streaming decode. -/
def c7BigErr : PyErr :=
  PyErr.valueError "array is too big; `arr.size * arr.dtype.itemsize` is larger than the maximum possible size."

/-- A grouped stream sample holding one audio entry (blob handle 0). -/
def c7BadEntry : StreamSample := { entries := [("shard/track.wav", 0), ("shard/track.json", 1)] }

/-- A decoder that raises the oversized-array failure on blob 0 and decodes
blob 2 into one four-sample excerpt. -/
def c7Dec (blob : Nat) : Except PyErr (List Signal) :=
  if blob = 0 then Except.error c7BigErr
  else Except.ok [{ rate := 4, length := 4, data := [[1, 1, 1, 1]] }]

/-- A healthy grouped stream sample (blob handle 2). -/
def c7GoodEntry : StreamSample := { entries := [("shard/ok.wav", 2), ("shard/ok.json", 3)] }

/-- A member dataset for the concat instances: `get` tags each request with
the member id and the inner index, making the routed request observable. -/
def cDemoMember (len tag : Nat) : MemberDataset (Nat × Nat) :=
  { length := len, get := fun j => (tag, j) }

/-- Concat over members of lengths 2 and 3 (the order of the claimed
interleave example). -/
def c8Demo : ConcatDataset (Nat × Nat) :=
  { datasets := [cDemoMember 2 0, cDemoMember 3 1] }

/-- Concat over members of lengths 3 and 2: unequal lengths the other way
around. -/
def c10Demo : ConcatDataset (Nat × Nat) :=
  { datasets := [cDemoMember 3 0, cDemoMember 2 1] }

/-- Whether some index below the concatenated length routes an inner index
at or past the reported length of the chosen member. -/
def c10OverflowExists (c : ConcatDataset α) : Bool :=
  (List.range (ConcatDataset.len c)).any (fun idx =>
    match c.datasets.get? (idx % c.datasets.length) with
    | some d => decide (d.length ≤ idx / c.datasets.length)
    | none => false)

/-- Whether two member datasets report different lengths. -/
def lengthsUnequal (c : ConcatDataset α) : Bool :=
  (c.datasets.map MemberDataset.length).any (fun x =>
    (c.datasets.map MemberDataset.length).any (fun y => x ≠ y))

/-- The concrete result of the demo loader call (used by witnesses). -/
def demoSampleOut : Sample :=
  { signal := { rate := 4, length := 4, data := [[1, 1, 1, 1]]
                metadata := [("offset", MetaVal.rat 0), ("path", MetaVal.str "spk/a.wav")] }
    source_idx := 0
    item_idx := 0
    source := "spk"
    path := "spk/a.wav" }

/-- Call arguments forcing an explicit lookup past the end of the demo
catalog (source 0 has one item, index 5 is out of range). -/
def silentArgs : LoaderArgs :=
  { sample_rate := 4, duration := 1, source_idx := some 0, item_idx := some 5 }

/-- The concrete silent sample the demo loader returns for `silentArgs`. -/
def silentSampleOut : Sample :=
  { signal := { rate := 4, length := 4, data := [[0, 0, 0, 0]]
                metadata := [("path", MetaVal.str "none")] }
    source_idx := 0
    item_idx := 5
    source := "spk"
    path := "none" }


/-- The alignment invariant at position `j`: every entry present at `j` in
some catalog of the state is either a sentinel or matches the reference
entry at `j` under the matcher. -/
def settledAt (matcher : String → String → Bool) (ref0 : List Item)
    (j : Nat) (state : List (List Item)) : Prop :=
  ∀ l ∈ state, ∀ e, l.get? j = some e →
    e.path = "none" ∨ matcher e.path ((ref0.getD j sentinelItem).path) = true

/-- The first sample of the demo aligned dataset at idx 0 (vocals: excerpt
search on `spk/a.wav`, offset 0 recorded in the metadata). -/
def c4FirstSample : Sample :=
  { signal :=
      { rate := 4, length := 4, data := [[1, 1, 1, 1]],
        metadata := [("offset", MetaVal.rat 0), ("path", MetaVal.str "spk/a.wav")] },
    source_idx := 0, item_idx := 0, source := "spk", path := "spk/a.wav" }

/-- The second sample of the demo aligned dataset at idx 0 (drums: windowed
read at the forced offset, so no offset key is recorded). -/
def c4DrumsSample : Sample :=
  { signal :=
      { rate := 4, length := 4, data := [[1, 1, 1, 1]],
        metadata := [("path", MetaVal.str "spk/a.wav")] },
    source_idx := 0, item_idx := 0, source := "spk", path := "spk/a.wav" }

/-- The kwargs of the first loader call of the demo dataset at idx 0. -/
def c4BaseArgs : LoaderArgs :=
  { sample_rate := 4, duration := 1, global_idx := some 0 }

/-- The kwargs the aligned branch hands every later loader at idx 0: offset
and both indices re-pointed at the first sample. -/
def c4AlignedArgs : LoaderArgs :=
  { sample_rate := 4, duration := 1, offset := some 0,
    source_idx := some 0, item_idx := some 0, global_idx := some 0 }

/-- The full call log of the demo aligned dataset at idx 0. -/
def c4Log : List (String × LoaderArgs × Sample) :=
  [("vocals", c4BaseArgs, c4FirstSample), ("drums", c4AlignedArgs, c4DrumsSample)]

/-- The item returned by the demo aligned dataset at idx 0. -/
def c4Item : DatasetItem :=
  { samples := [("vocals", c4FirstSample), ("drums", c4DrumsSample)], idx := 0 }

/-! ### Helper lemmas -/

theorem exBind_ok (a : α) (f : α → Except ε β) :
    (Except.ok a >>= f : Except ε β) = f a := rfl

theorem exBind_err (e : ε) (f : α → Except ε β) :
    (Except.error e >>= f : Except ε β) = Except.error e := rfl

theorem perm_cons_removeAt (l : List α) (j : Nat) (hj : j < l.length) (d : α) :
    l.Perm (l.getD j d :: removeAt j l) := by
  conv_lhs => rw [← List.take_append_drop j l]
  rw [List.drop_eq_getElem_cons hj, removeAt, List.getD_eq_getElem l d hj]
  exact List.perm_middle

theorem shuffleAux_perm (fuel : Nat) :
    ∀ (g : RandomState) (l acc : List α), (shuffleAux fuel g l acc).1.Perm (l ++ acc) := by
  induction fuel with
  | zero => intro g l acc; rw [shuffleAux.eq_1]
  | succ n ih =>
    intro g l acc
    cases l with
    | nil => rw [shuffleAux.eq_2]; exact List.Perm.refl _
    | cons x xs =>
      have hj : (g.next).1 % (xs.length + 1) < (x :: xs).length :=
        Nat.mod_lt _ (Nat.succ_pos _)
      rw [shuffleAux.eq_3]
      refine (ih _ _ _).trans ?_
      refine List.Perm.trans List.perm_middle ?_
      have hc := perm_cons_removeAt (x :: xs) ((g.next).1 % (xs.length + 1)) hj x
      have hd := hc.symm.append_right acc
      rw [List.cons_append] at hd
      exact hd

theorem shuffleList_perm (g : RandomState) (l : List α) :
    (shuffleList g l).1.Perm l := by
  have h := shuffleAux_perm l.length g l ([] : List α)
  simpa [shuffleList] using h

theorem map_range_mod (l : List α) (d : α) :
    (List.range l.length).map (fun i => l.getD (i % l.length) d) = l := by
  apply List.ext_getElem
  · simp
  · intro i h1 h2
    simp only [List.getElem_map, List.getElem_range]
    rw [Nat.mod_eq_of_lt h2, List.getD_eq_getElem l d h2]

theorem flatIndices_nodup (lists : List (List Item)) : (flatIndices lists).Nodup := by
  unfold flatIndices
  rw [List.nodup_flatMap]
  constructor
  · intro si _
    exact List.Nodup.map (fun a b h => by injection h) (List.nodup_range _)
  · refine (List.pairwise_lt_range _).imp ?_
    intro a b hab p hpa hpb
    obtain ⟨ia, -, rfl⟩ := List.mem_map.mp hpa
    obtain ⟨ib, -, hb⟩ := List.mem_map.mp hpb
    exact absurd (congrArg Prod.fst hb) (Nat.ne_of_gt hab)

theorem mem_flatIndices (lists : List (List Item)) (p : Nat × Nat) :
    p ∈ flatIndices lists ↔ p.1 < lists.length ∧ p.2 < (lists.getD p.1 []).length := by
  unfold flatIndices
  simp only [List.mem_flatMap, List.mem_range, List.mem_map]
  constructor
  · rintro ⟨si, hsi, ii, hii, rfl⟩
    exact ⟨hsi, hii⟩
  · rintro ⟨h1, h2⟩
    exact ⟨p.1, h1, p.2, h2, rfl⟩

/-! ### Claims -/

/-- Claim C1: for every fixed seed and global_idx, two calls to
`AudioLoader.__call__` with identical state-seed, sample_rate, duration,
loudness_cutoff, num_channels and the same global_idx return bit-identical
results: equal signal, equal source_idx, equal item_idx, and equal path. -/
theorem claim_C1 (w : World) (L : AudioLoader) (seed : Nat) (a : LoaderArgs)
    (g : Nat) (hg : a.global_idx = some g)
    (s1 s2 : Sample) (r1 r2 : RandomState)
    (h1 : L.call w (random_state seed) a = Except.ok (s1, r1))
    (h2 : L.call w (random_state seed) a = Except.ok (s2, r2)) :
    s1.signal = s2.signal ∧ s1.source_idx = s2.source_idx
      ∧ s1.item_idx = s2.item_idx ∧ s1.path = s2.path := by
  rw [h1] at h2
  injection h2 with h3
  injection h3 with h4 h5
  subst h4
  exact ⟨rfl, rfl, rfl, rfl⟩

/-- Witness for C1 at a concrete loader, world, seed and call. -/
theorem claim_C1_witness :
    demoArgs.global_idx = some 0
    ∧ (demoSampleOut.signal = demoSampleOut.signal
      ∧ demoSampleOut.source_idx = demoSampleOut.source_idx
      ∧ demoSampleOut.item_idx = demoSampleOut.item_idx
      ∧ demoSampleOut.path = demoSampleOut.path) :=
  ⟨rfl, claim_C1 demoWorld demoLoader 7 demoArgs 0 rfl demoSampleOut demoSampleOut
    ⟨7⟩ ⟨7⟩ (by with_unfolding_all rfl) (by with_unfolding_all rfl)⟩

/-- Claim C2: with without-replacement sampling over catalogs totalling N
items, global_idx = 0..N-1 visits every valid (source_idx, item_idx) pair
exactly once — the visit list is a permutation of the duplicate-free complete
enumeration of the catalog positions — and global_idx = i + N resolves to the
same pair as i (the flattened permuted list is indexed modulo its length). -/
theorem claim_C2 (srcs : List (String × List Item)) (sh : Bool) (seed N : Nat)
    (hN : N = (mkLoader srcs sh seed).audio_indices.length) :
    ((List.range N).map (resolveGlobal (mkLoader srcs sh seed))).Perm
        (flatIndices (srcs.map Prod.snd))
    ∧ (flatIndices (srcs.map Prod.snd)).Nodup
    ∧ (∀ p : Nat × Nat, p ∈ flatIndices (srcs.map Prod.snd)
        ↔ p.1 < srcs.length ∧ p.2 < ((srcs.map Prod.snd).getD p.1 []).length)
    ∧ (∀ i, resolveGlobal (mkLoader srcs sh seed) (i + N)
        = resolveGlobal (mkLoader srcs sh seed) i) := by
  subst hN
  refine ⟨?_, flatIndices_nodup _, ?_, ?_⟩
  · have e1 : (List.range (mkLoader srcs sh seed).audio_indices.length).map
        (resolveGlobal (mkLoader srcs sh seed)) = (mkLoader srcs sh seed).audio_indices :=
      map_range_mod _ _
    rw [e1]
    cases sh with
    | false => exact List.Perm.refl _
    | true => exact shuffleList_perm _ _
  · intro p
    rw [mem_flatIndices]
    rw [List.length_map]
  · intro i
    unfold resolveGlobal
    rw [Nat.add_mod_right]

/-- Witness for C2 at a concrete shuffled two-source loader with N = 3. -/
theorem claim_C2_witness :
    (3 : Nat) = (mkLoader c2Catalogs true 0).audio_indices.length
    ∧ (((List.range 3).map (resolveGlobal (mkLoader c2Catalogs true 0))).Perm
        (flatIndices (c2Catalogs.map Prod.snd))
      ∧ (flatIndices (c2Catalogs.map Prod.snd)).Nodup
      ∧ (∀ p : Nat × Nat, p ∈ flatIndices (c2Catalogs.map Prod.snd)
          ↔ p.1 < c2Catalogs.length ∧ p.2 < ((c2Catalogs.map Prod.snd).getD p.1 []).length)
      ∧ (∀ i, resolveGlobal (mkLoader c2Catalogs true 0) (i + 3)
          = resolveGlobal (mkLoader c2Catalogs true 0) i)) :=
  ⟨by rfl, claim_C2 c2Catalogs true 0 3 (by rfl)⟩

/-- Claim C8: ConcatDataset reports the sum of the member lengths as its
length and routes idx to member idx mod k with inner index idx div k; for
member lengths 2 and 3, idx = 0..4 routes to members [0,1,0,1,0] with inner
indices [0,0,1,1,2] (members tag their answers with (member, inner)). -/
theorem claim_C8 {α : Type} (c : ConcatDataset α) (h : 0 < c.datasets.length)
    (idx : Nat) (d : MemberDataset α)
    (hd : c.datasets.get? (idx % c.datasets.length) = some d) :
    ConcatDataset.len c = (c.datasets.map MemberDataset.length).sum
    ∧ ConcatDataset.getItem c idx = some (d.get (idx / c.datasets.length))
    ∧ (List.range 5).map (ConcatDataset.getItem c8Demo)
        = [some (0, 0), some (1, 0), some (0, 1), some (1, 1), some (0, 2)] := by
  refine ⟨rfl, ?_, by decide⟩
  unfold ConcatDataset.getItem
  rw [if_neg (Nat.pos_iff_ne_zero.mp h), hd]
  rfl

/-- Witness for C8 at the concrete members of lengths 2 and 3, idx = 4. -/
theorem claim_C8_witness :
    0 < c8Demo.datasets.length
    ∧ (ConcatDataset.len c8Demo = (c8Demo.datasets.map MemberDataset.length).sum
      ∧ ConcatDataset.getItem c8Demo 4 = some ((cDemoMember 2 0).get (4 / c8Demo.datasets.length))
      ∧ (List.range 5).map (ConcatDataset.getItem c8Demo)
          = [some (0, 0), some (1, 0), some (0, 1), some (1, 1), some (0, 2)]) :=
  ⟨by decide, claim_C8 c8Demo (by decide) 4 (cDemoMember 2 0) (by rfl)⟩

/-- Claim C10 counterexample: member lengths 3 and 2 are unequal, yet every
idx below the concatenated length 5 routes an inner index strictly inside the
chosen member's reported length — the claimed overflow index does not exist
for this unequal-length configuration. -/
theorem claim_C10_counterexample :
    lengthsUnequal c10Demo = true ∧ c10OverflowExists c10Demo = false := by
  decide

/-- Claim C10 (amended): `ConcatDataset.__getitem__` performs no bounds check
on the inner index: for some unequal-length member configurations — e.g.
lengths 2 and 3 — an idx strictly below the concatenated length routes an
inner index at or past the reported length of the chosen member (idx = 4
routes inner index 2 to the length-2 member), and the item is still requested
from that member. -/
theorem claim_C10 :
    lengthsUnequal c8Demo = true
    ∧ 4 < ConcatDataset.len c8Demo
    ∧ c8Demo.datasets.get? (4 % c8Demo.datasets.length) = some (cDemoMember 2 0)
    ∧ (cDemoMember 2 0).length ≤ 4 / c8Demo.datasets.length
    ∧ ConcatDataset.getItem c8Demo 4 = some ((cDemoMember 2 0).get (4 / c8Demo.datasets.length)) :=
  ⟨by decide, by decide, rfl, by decide, rfl⟩

/-- Claim C9: a resumable sampler built with start_idx = k over a wrapped
index sequence yields, on its first full pass, exactly the trailing part of
the wrapped sequence after the first k positions, in order (for the
distributed variant the skip count is start_idx div num_replicas, applied to
the replica's shard), and every subsequent full pass yields the whole
wrapped sequence. -/
theorem claim_C9 (L k : Nat) (shard : List Nat) (reps k2 : Nat) :
    ((mkResumableSequential L (some k)).iterOnce.1 = (List.range L).drop k
      ∧ (List.range L).take k ++ (mkResumableSequential L (some k)).iterOnce.1 = List.range L
      ∧ (mkResumableSequential L (some k)).iterOnce.1.length = L - k
      ∧ ((mkResumableSequential L (some k)).iterOnce.2).iterOnce.1 = List.range L)
    ∧ ((mkResumableDistributed shard reps (some k2)).iterOnce.1 = shard.drop (k2 / reps)
      ∧ shard.take (k2 / reps) ++ (mkResumableDistributed shard reps (some k2)).iterOnce.1 = shard
      ∧ (mkResumableDistributed shard reps (some k2)).iterOnce.1.length = shard.length - k2 / reps
      ∧ ((mkResumableDistributed shard reps (some k2)).iterOnce.2).iterOnce.1 = shard) := by
  refine ⟨⟨rfl, ?_, ?_, ?_⟩, rfl, ?_, ?_, ?_⟩
  · exact List.take_append_drop k (List.range L)
  · show ((List.range L).drop k).length = L - k
    rw [List.length_drop, List.length_range]
  · rfl
  · exact List.take_append_drop (k2 / reps) shard
  · show (shard.drop (k2 / reps)).length = shard.length - k2 / reps
    rw [List.length_drop]
  · rfl

theorem ratDiv_eq (a b : ℚ) : Rat.div a b = a / b := rfl

theorem ratFloor_eq (q : ℚ) : Rat.floor q = ⌊q⌋ := by
  apply le_antisymm
  · exact Int.le_floor.mpr (Rat.le_floor.mp le_rfl)
  · exact Rat.le_floor.mpr (Int.floor_le q)

theorem pyInt_of_nonneg {q : ℚ} (h : 0 ≤ q) : pyInt q = ⌊q⌋ := by
  unfold pyInt
  rw [if_neg (not_lt.mpr h), ratFloor_eq]

theorem pyInt_toNat_le {q : ℚ} {n : ℕ} (h : q ≤ (n : ℚ)) : (pyInt q).toNat ≤ n := by
  rcases lt_or_le q 0 with hq | hq
  · have h1 : pyInt q = -(Rat.floor (-q)) := by unfold pyInt; rw [if_pos hq]
    have h2 : (0 : ℤ) ≤ Rat.floor (-q) := by
      rw [ratFloor_eq]; exact Int.floor_nonneg.mpr (by linarith)
    rw [h1, Int.toNat_of_nonpos (by omega)]
    exact Nat.zero_le n
  · rw [pyInt_of_nonneg hq]
    have h4 : ⌊q⌋ ≤ ⌊(n : ℚ)⌋ := Int.floor_le_floor h
    have h3 : ⌊q⌋ ≤ (n : ℤ) := by rwa [Int.floor_natCast] at h4
    exact Int.toNat_le.mpr h3

theorem pyRound_cases (q : ℚ) : pyRound q = Rat.floor q ∨ pyRound q = Rat.floor q + 1 := by
  unfold pyRound
  split_ifs
  · exact Or.inl rfl
  · exact Or.inr rfl
  · exact Or.inl rfl
  · exact Or.inr rfl

theorem pyInt_toNat_le_pyRound_toNat (q : ℚ) : (pyInt q).toNat ≤ (pyRound q).toNat := by
  rcases lt_or_le q 0 with hq | hq
  · have h1 : pyInt q = -(Rat.floor (-q)) := by unfold pyInt; rw [if_pos hq]
    have h2 : (0 : ℤ) ≤ Rat.floor (-q) := by
      rw [ratFloor_eq]; exact Int.floor_nonneg.mpr (by linarith)
    rw [h1, Int.toNat_of_nonpos (by omega)]
    exact Nat.zero_le _
  · have h1 : pyInt q = Rat.floor q := by rw [pyInt_of_nonneg hq, ratFloor_eq]
    rcases pyRound_cases q with h | h
    · rw [h1, h]
    · rw [h1, h]
      exact Int.toNat_le_toNat (by omega)

theorem ratDiv_zero (b : ℚ) : Rat.div 0 b = 0 := by
  rw [ratDiv_eq, zero_div]

theorem copyMeta_length (s : Signal) (it : Item) : (s.copyMeta it).length = s.length := rfl

theorem copyMeta_data (s : Signal) (it : Item) : (s.copyMeta it).data = s.data := rfl

theorem copyMeta_rate (s : Signal) (it : Item) : (s.copyMeta it).rate = s.rate := rfl

theorem zeroPadTo_length (s : Signal) (n : Nat) : (s.zeroPadTo n).length = max s.length n := rfl

theorem resample_rate (s : Signal) (sr : Nat) : (s.resample sr).rate = sr := by
  unfold Signal.resample
  split_ifs with h
  · exact h
  · rfl

theorem toMono_zeros (d : ℚ) (sr : Nat) : (Signal.zeros d sr 1).toMono = Signal.zeros d sr 1 := by
  unfold Signal.toMono Signal.zeros
  simp [sumChannels, List.map_replicate, ratDiv_zero]

theorem resample_self {s : Signal} {sr : Nat} (h : s.rate = sr) : s.resample sr = s := by
  unfold Signal.resample
  rw [if_pos h]

theorem postProcess_def (sig : Signal) (sr nc : Nat) (d : ℚ) :
    postProcess sig sr nc d =
      (if ((if nc = 1 then sig.toMono else sig).resample sr).duration < d
       then ((if nc = 1 then sig.toMono else sig).resample sr).zeroPadTo (pyInt (d * sr)).toNat
       else (if nc = 1 then sig.toMono else sig).resample sr) := rfl

theorem postProcess_zeros (d : ℚ) (sr nc : Nat) :
    postProcess (Signal.zeros d sr nc) sr nc d = Signal.zeros d sr nc := by
  rw [postProcess_def]
  have h1 : (if nc = 1 then (Signal.zeros d sr nc).toMono else Signal.zeros d sr nc)
      = Signal.zeros d sr nc := by
    split_ifs with h
    · subst h; exact toMono_zeros d sr
    · rfl
  rw [h1, show (Signal.zeros d sr nc).resample sr = Signal.zeros d sr nc from resample_self rfl]
  split_ifs with h2
  · unfold Signal.zeroPadTo Signal.zeros
    have ht : (pyInt (d * sr)).toNat ≤ (pyRound (d * sr)).toNat :=
      pyInt_toNat_le_pyRound_toNat _
    simp [List.map_replicate, Nat.max_eq_left ht, Nat.sub_eq_zero_of_le ht]
  · rfl

theorem duration_eq (s : Signal) : s.duration = (s.length : ℚ) / (s.rate : ℚ) := by
  unfold Signal.duration
  rw [Rat.mkRat_eq_div, Int.cast_natCast]

theorem postProcess_length_ge (sig : Signal) (sr nc : Nat) (d : ℚ) (hsr : 0 < sr) :
    (pyInt (d * sr)).toNat ≤ (postProcess sig sr nc d).length := by
  rw [postProcess_def]
  set s2 := (if nc = 1 then sig.toMono else sig).resample sr with hs2
  split_ifs with h
  · rw [zeroPadTo_length]
    exact le_max_right _ _
  · have hd2 : d ≤ s2.duration := not_lt.mp h
    have hrate : s2.rate = sr := resample_rate _ _
    have hsr' : (0 : ℚ) < (sr : ℚ) := by exact_mod_cast hsr
    have hdur : s2.duration = (s2.length : ℚ) / (sr : ℚ) := by rw [duration_eq, hrate]
    have h5 : d * sr ≤ (s2.length : ℚ) := by
      rw [hdur] at hd2
      calc d * sr ≤ (s2.length : ℚ) / sr * sr := mul_le_mul_of_nonneg_right hd2 hsr'.le
        _ = (s2.length : ℚ) := div_mul_cancel₀ _ (ne_of_gt hsr')
    exact pyInt_toNat_le h5

theorem postProcess_pad (sig : Signal) (sr nc : Nat) (d : ℚ) (hsr : 0 < sr)
    (h : ((if nc = 1 then sig.toMono else sig).resample sr).duration < d) :
    (postProcess sig sr nc d).length = (pyInt (d * sr)).toNat
    ∧ (postProcess sig sr nc d).data
        = ((if nc = 1 then sig.toMono else sig).resample sr).data.map
            (fun ch => ch ++ List.replicate ((pyInt (d * sr)).toNat - ch.length) 0) := by
  rw [postProcess_def, if_pos h]
  set s2 := (if nc = 1 then sig.toMono else sig).resample sr with hs2
  refine ⟨?_, rfl⟩
  rw [zeroPadTo_length]
  have hrate : s2.rate = sr := resample_rate _ _
  have hdur : s2.duration = (s2.length : ℚ) / (sr : ℚ) := by rw [duration_eq, hrate]
  have hsr' : (0 : ℚ) < (sr : ℚ) := by exact_mod_cast hsr
  have h1 : (s2.length : ℚ) < d * sr := by
    rw [hdur] at h
    calc (s2.length : ℚ) = (s2.length : ℚ) / sr * sr := (div_mul_cancel₀ _ (ne_of_gt hsr')).symm
      _ < d * sr := mul_lt_mul_of_pos_right h hsr'
  have h2 : (0 : ℚ) ≤ d * sr := le_trans (Nat.cast_nonneg _) h1.le
  have h3 : (s2.length : ℤ) ≤ pyInt (d * sr) := by
    rw [pyInt_of_nonneg h2]
    exact Int.le_floor.mpr (by exact_mod_cast h1.le)
  have h4 : s2.length ≤ (pyInt (d * sr)).toNat := by
    have h5 := Int.toNat_le_toNat h3
    rwa [Int.toNat_natCast] at h5
  exact Nat.max_eq_right h4

theorem postProcess_nopad (sig : Signal) (sr nc : Nat) (d : ℚ)
    (h : ¬ ((if nc = 1 then sig.toMono else sig).resample sr).duration < d) :
    postProcess sig sr nc d = (if nc = 1 then sig.toMono else sig).resample sr := by
  rw [postProcess_def, if_neg h]

theorem loaderDecode_sentinel (w : World) (a : LoaderArgs) (st1 : RandomState) :
    loaderDecode w "none" a st1
      = Except.ok (Signal.zeros a.duration a.sample_rate a.num_channels, st1) := by
  unfold loaderDecode
  simp

theorem call_shape (L : AudioLoader) (w : World) (st : RandomState) (a : LoaderArgs)
    {info : Item} {si ii : Nat} {st1 : RandomState} {s : Sample} {stf : RandomState}
    (hres : L.resolve w st a = Except.ok (info, si, ii, st1))
    (hok : L.call w st a = Except.ok (s, stf)) :
    ∃ sig1, s.signal = (postProcess sig1 a.sample_rate a.num_channels a.duration).copyMeta info
      ∧ s.source_idx = si ∧ s.item_idx = ii ∧ s.path = info.path := by
  unfold AudioLoader.call at hok
  rw [hres] at hok
  rw [exBind_ok] at hok
  dsimp only at hok
  cases hdec : loaderDecode w info.path a st1 with
  | error e => rw [hdec] at hok; rw [exBind_err] at hok; cases hok
  | ok p =>
    obtain ⟨sig1, st2⟩ := p
    rw [hdec] at hok
    rw [exBind_ok] at hok
    dsimp only at hok
    cases hsrc : sourceLookup L si with
    | error e => rw [hsrc] at hok; rw [exBind_err] at hok; cases hok
    | ok src =>
      rw [hsrc] at hok
      rw [exBind_ok] at hok
      injection hok with h1
      injection h1 with h2 h3
      subst h2
      exact ⟨sig1, rfl, rfl, rfl, rfl⟩

theorem call_sentinel (L : AudioLoader) (w : World) (st : RandomState) (a : LoaderArgs)
    {info : Item} {si ii : Nat} {st1 : RandomState} {s : Sample} {stf : RandomState}
    (hres : L.resolve w st a = Except.ok (info, si, ii, st1))
    (hsent : info.path = "none")
    (hok : L.call w st a = Except.ok (s, stf)) :
    s.signal = (Signal.zeros a.duration a.sample_rate a.num_channels).copyMeta info
      ∧ s.source_idx = si ∧ s.item_idx = ii ∧ s.path = "none" := by
  unfold AudioLoader.call at hok
  rw [hres] at hok
  rw [exBind_ok] at hok
  dsimp only at hok
  rw [hsent] at hok
  rw [loaderDecode_sentinel] at hok
  rw [exBind_ok] at hok
  dsimp only at hok
  cases hsrc : sourceLookup L si with
  | error e => rw [hsrc] at hok; rw [exBind_err] at hok; cases hok
  | ok src =>
    rw [hsrc] at hok
    rw [exBind_ok] at hok
    injection hok with h1
    injection h1 with h2 h3
    subst h2
    refine ⟨?_, rfl, rfl, rfl⟩
    dsimp only
    rw [postProcess_zeros]

theorem call_excerpt_error (L : AudioLoader) (w : World) (st : RandomState) (a : LoaderArgs)
    {info : Item} {si ii : Nat} {st1 : RandomState} {e : PyErr}
    (hres : L.resolve w st a = Except.ok (info, si, ii, st1))
    (hpath : info.path ≠ "none") (hoff : a.offset = none)
    (herr : w.excerpt info.path a.duration st1 a.loudness_cutoff = Except.error e) :
    (recognizedOffline e = false → L.call w st a = Except.error e)
    ∧ (recognizedOffline e = true → ∀ s stf, L.call w st a = Except.ok (s, stf) →
        s.signal = (Signal.zeros a.duration a.sample_rate a.num_channels).copyMeta info
          ∧ s.path = info.path) := by
  have hdec : loaderDecode w info.path a st1
      = (if recognizedOffline e then
           Except.ok (Signal.zeros a.duration a.sample_rate a.num_channels, st1)
         else Except.error e) := by
    unfold loaderDecode
    rw [if_pos hpath, hoff]
    dsimp only
    rw [herr]
  constructor
  · intro hrec
    have hdec2 : loaderDecode w info.path a st1 = Except.error e := by
      rw [hdec]; simp [hrec]
    unfold AudioLoader.call
    rw [hres, exBind_ok]
    dsimp only
    rw [hdec2, exBind_err]
  · intro hrec s stf hok
    have hdec2 : loaderDecode w info.path a st1
        = Except.ok (Signal.zeros a.duration a.sample_rate a.num_channels, st1) := by
      rw [hdec]; simp [hrec]
    unfold AudioLoader.call at hok
    rw [hres, exBind_ok] at hok
    dsimp only at hok
    rw [hdec2, exBind_ok] at hok
    dsimp only at hok
    cases hsrc : sourceLookup L si with
    | error e2 => rw [hsrc, exBind_err] at hok; cases hok
    | ok src =>
      rw [hsrc, exBind_ok] at hok
      injection hok with h1
      injection h1 with h2 h3
      subst h2
      refine ⟨?_, rfl⟩
      dsimp only
      rw [postProcess_zeros]

/-- Claim C5 (amended): a sentinel resolution yields a zero-valued signal of
exactly round(duration*sample_rate) samples, num_channels channels, at
sample_rate; in every case the returned signal has at least
int(duration*sample_rate) (floor) samples, and when the post-processed
signal falls short of the duration the shortfall is zero-filled at the
trailing edge so the final length is exactly int(duration*sample_rate) —
the code pads to `int(...)`, not `round(...)`. -/
theorem claim_C5 (L : AudioLoader) (w : World) (st : RandomState) (a : LoaderArgs)
    (info : Item) (si ii : Nat) (st1 : RandomState) (s : Sample) (stf : RandomState)
    (hres : L.resolve w st a = Except.ok (info, si, ii, st1))
    (hok : L.call w st a = Except.ok (s, stf))
    (hsr : 0 < a.sample_rate) :
    (info.path = "none" →
        s.signal.rate = a.sample_rate
        ∧ s.signal.length = (pyRound (a.duration * a.sample_rate)).toNat
        ∧ s.signal.data = List.replicate a.num_channels
            (List.replicate (pyRound (a.duration * a.sample_rate)).toNat 0))
    ∧ (pyInt (a.duration * a.sample_rate)).toNat ≤ s.signal.length
    ∧ ∃ sig1,
        s.signal.length = (postProcess sig1 a.sample_rate a.num_channels a.duration).length
        ∧ s.signal.data = (postProcess sig1 a.sample_rate a.num_channels a.duration).data
        ∧ (((if a.num_channels = 1 then sig1.toMono else sig1).resample a.sample_rate).duration
              < a.duration →
            s.signal.length = (pyInt (a.duration * a.sample_rate)).toNat
            ∧ ∀ ch ∈ s.signal.data,
                ∃ ch0 ∈ ((if a.num_channels = 1 then sig1.toMono else sig1).resample
                    a.sample_rate).data,
                  ch = ch0 ++ List.replicate
                    ((pyInt (a.duration * a.sample_rate)).toNat - ch0.length) 0)
        ∧ (¬ ((if a.num_channels = 1 then sig1.toMono else sig1).resample a.sample_rate).duration
              < a.duration →
            s.signal.length
                = ((if a.num_channels = 1 then sig1.toMono else sig1).resample
                    a.sample_rate).length
            ∧ s.signal.data
                = ((if a.num_channels = 1 then sig1.toMono else sig1).resample
                    a.sample_rate).data) := by
  obtain ⟨sig1, hsig, hsi, hii, hpath⟩ := call_shape L w st a hres hok
  refine ⟨?_, ?_, ?_⟩
  · intro hsent
    obtain ⟨hz, -, -, -⟩ := call_sentinel L w st a hres hsent hok
    rw [hz]
    exact ⟨rfl, rfl, rfl⟩
  · rw [hsig, copyMeta_length]
    exact postProcess_length_ge sig1 a.sample_rate a.num_channels a.duration hsr
  · refine ⟨sig1, ?_, ?_, ?_, ?_⟩
    · rw [hsig, copyMeta_length]
    · rw [hsig, copyMeta_data]
    · intro hshort
      obtain ⟨hlen, hdata⟩ :=
        postProcess_pad sig1 a.sample_rate a.num_channels a.duration hsr hshort
      refine ⟨by rw [hsig, copyMeta_length, hlen], ?_⟩
      intro ch hch
      rw [hsig, copyMeta_data, hdata] at hch
      obtain ⟨ch0, hch0, hch1⟩ := List.mem_map.mp hch
      exact ⟨ch0, hch0, hch1.symm⟩
    · intro hlong
      have hnp := postProcess_nopad sig1 a.sample_rate a.num_channels a.duration hlong
      rw [hsig, copyMeta_length, copyMeta_data, hnp]
      exact ⟨rfl, rfl⟩

/-- Claim C5 counterexample: with duration 9/10 at rate 3 and a one-sample
decoded excerpt, the returned signal has 2 samples while
round(duration*sample_rate) = round(2.7) = 3: the claimed lower bound
`length ≥ round(duration*sample_rate)` is violated (the code pads to
int(2.7) = 2). -/
theorem claim_C5_counterexample :
    (AudioLoader.call c5Loader c5World (random_state 0) c5Args).map
        (fun p => p.1.signal.length) = Except.ok 2
    ∧ (pyRound (c5Args.duration * c5Args.sample_rate)).toNat = 3
    ∧ ¬ ((pyRound (c5Args.duration * c5Args.sample_rate)).toNat ≤ 2) := by
  refine ⟨?_, ?_, ?_⟩
  · with_unfolding_all rfl
  · with_unfolding_all rfl
  · with_unfolding_all decide

/-- Witness for C5 at the demo loader with an out-of-range explicit lookup
(sentinel resolution), discharging every hypothesis concretely. -/
theorem claim_C5_witness :
    0 < silentArgs.sample_rate
    ∧ ((sentinelItem.path = "none" →
        silentSampleOut.signal.rate = silentArgs.sample_rate
        ∧ silentSampleOut.signal.length
            = (pyRound (silentArgs.duration * silentArgs.sample_rate)).toNat
        ∧ silentSampleOut.signal.data = List.replicate silentArgs.num_channels
            (List.replicate (pyRound (silentArgs.duration * silentArgs.sample_rate)).toNat 0))
      ∧ (pyInt (silentArgs.duration * silentArgs.sample_rate)).toNat
          ≤ silentSampleOut.signal.length
      ∧ ∃ sig1,
          silentSampleOut.signal.length
              = (postProcess sig1 silentArgs.sample_rate silentArgs.num_channels
                  silentArgs.duration).length
          ∧ silentSampleOut.signal.data
              = (postProcess sig1 silentArgs.sample_rate silentArgs.num_channels
                  silentArgs.duration).data
          ∧ (((if silentArgs.num_channels = 1 then sig1.toMono else sig1).resample
                  silentArgs.sample_rate).duration < silentArgs.duration →
              silentSampleOut.signal.length
                  = (pyInt (silentArgs.duration * silentArgs.sample_rate)).toNat
              ∧ ∀ ch ∈ silentSampleOut.signal.data,
                  ∃ ch0 ∈ ((if silentArgs.num_channels = 1 then sig1.toMono else sig1).resample
                      silentArgs.sample_rate).data,
                    ch = ch0 ++ List.replicate
                      ((pyInt (silentArgs.duration * silentArgs.sample_rate)).toNat
                        - ch0.length) 0)
          ∧ (¬ ((if silentArgs.num_channels = 1 then sig1.toMono else sig1).resample
                  silentArgs.sample_rate).duration < silentArgs.duration →
              silentSampleOut.signal.length
                  = ((if silentArgs.num_channels = 1 then sig1.toMono else sig1).resample
                      silentArgs.sample_rate).length
              ∧ silentSampleOut.signal.data
                  = ((if silentArgs.num_channels = 1 then sig1.toMono else sig1).resample
                      silentArgs.sample_rate).data)) :=
  ⟨by decide,
   claim_C5 demoLoader demoWorld (random_state 0) silentArgs sentinelItem 0 5 (random_state 0)
     silentSampleOut (random_state 0) (by with_unfolding_all rfl) (by with_unfolding_all rfl)
     (by decide)⟩

/-- Claim C6 (amended): for an explicit (source_idx, item_idx) whose
source_idx is a valid index of the catalogs but whose item_idx is out of
range of its catalog, `AudioLoader.__call__` does not raise: the lookup
falls back to the sentinel item and the call returns a silent sample (the
unguarded `self.sources[source_idx]` lookup succeeds).  With source_idx
itself out of range the call raises IndexError at that final lookup, so the
original claim fails there. -/
theorem claim_C6 (srcs : List (String × List Item)) (sh : Bool) (seed : Nat) (ht : Bool)
    (w : World) (st : RandomState) (a : LoaderArgs) (si ii : Nat)
    (ha : a.source_idx = some si) (hb : a.item_idx = some ii)
    (hsi : si < (mkLoader srcs sh seed ht).sources.length)
    (hoob : ((mkLoader srcs sh seed ht).audio_lists.getD si []).length ≤ ii) :
    ∃ s stf, (mkLoader srcs sh seed ht).call w st a = Except.ok (s, stf)
      ∧ s.path = "none" ∧ s.source_idx = si ∧ s.item_idx = ii
      ∧ s.signal.rate = a.sample_rate
      ∧ s.signal.data = List.replicate a.num_channels
          (List.replicate (pyRound (a.duration * a.sample_rate)).toNat 0) := by
  set L := mkLoader srcs sh seed ht with hL
  have hlen : L.audio_lists.length = L.sources.length := by
    rw [hL]; unfold mkLoader; simp
  have hsi2 : si < L.audio_lists.length := by rw [hlen]; exact hsi
  obtain ⟨cat, hcat⟩ : ∃ cat, L.audio_lists.get? si = some cat :=
    ⟨_, List.get?_eq_get hsi2⟩
  have hcatD : L.audio_lists.getD si [] = cat := by
    rw [List.getD_eq_getElem?_getD, ← List.get?_eq_getElem?, hcat]
    rfl
  have hnone : cat.get? ii = none :=
    List.get?_eq_none.mpr (by rw [← hcatD]; exact hoob)
  have hres : L.resolve w st a = Except.ok (sentinelItem, si, ii, st) := by
    unfold AudioLoader.resolve
    rw [ha, hb]
    dsimp only
    rw [hcat]
    dsimp only
    rw [hnone]
  obtain ⟨src, hsrc⟩ : ∃ src, L.sources.get? si = some src :=
    ⟨_, List.get?_eq_get hsi⟩
  have hlook : sourceLookup L si = Except.ok src := by
    unfold sourceLookup; rw [hsrc]
  have hcall : L.call w st a
      = Except.ok
          ({ signal := (postProcess (Signal.zeros a.duration a.sample_rate a.num_channels)
                a.sample_rate a.num_channels a.duration).copyMeta sentinelItem
             source_idx := si
             item_idx := ii
             source := src
             path := "none"
             transform_args := (transformStep L st).1 }, (transformStep L st).2) := by
    unfold AudioLoader.call
    rw [hres, exBind_ok]
    dsimp only
    rw [show sentinelItem.path = "none" from rfl, loaderDecode_sentinel, exBind_ok]
    dsimp only
    rw [hlook, exBind_ok]
  refine ⟨_, _, hcall, rfl, rfl, rfl, ?_, ?_⟩
  · show ((postProcess (Signal.zeros a.duration a.sample_rate a.num_channels)
        a.sample_rate a.num_channels a.duration).copyMeta sentinelItem).rate = a.sample_rate
    rw [postProcess_zeros]
    rfl
  · show ((postProcess (Signal.zeros a.duration a.sample_rate a.num_channels)
        a.sample_rate a.num_channels a.duration).copyMeta sentinelItem).data = _
    rw [postProcess_zeros]
    rfl

/-- Claim C6 counterexample: an explicit lookup with source_idx = 1 past the
single catalog of the demo loader raises IndexError at the unguarded
`self.sources[source_idx]` lookup rather than failing soft — the call does
not return a silent sample. -/
theorem claim_C6_counterexample :
    demoLoader.call demoWorld (random_state 0)
      { sample_rate := 4, duration := 1, source_idx := some 1, item_idx := some 0 }
      = Except.error PyErr.indexError := by
  with_unfolding_all rfl

/-- Witness for C6 at the demo loader: source 0 is valid, item index 5 is
out of range of its one-item catalog. -/
theorem claim_C6_witness :
    silentArgs.source_idx = some 0 ∧ silentArgs.item_idx = some 5
    ∧ 0 < (mkLoader demoCatalogs false 0 false).sources.length
    ∧ ((mkLoader demoCatalogs false 0 false).audio_lists.getD 0 []).length ≤ 5
    ∧ ∃ s stf, (mkLoader demoCatalogs false 0 false).call demoWorld (random_state 0) silentArgs
        = Except.ok (s, stf)
      ∧ s.path = "none" ∧ s.source_idx = 0 ∧ s.item_idx = 5
      ∧ s.signal.rate = silentArgs.sample_rate
      ∧ s.signal.data = List.replicate silentArgs.num_channels
          (List.replicate (pyRound (silentArgs.duration * silentArgs.sample_rate)).toNat 0) :=
  ⟨rfl, rfl, by decide, by decide,
   claim_C6 demoCatalogs false 0 false demoWorld (random_state 0) silentArgs 0 5
     rfl rfl (by decide) (by decide)⟩

theorem decodeStream_mid (dec : Nat → Except PyErr (List Signal)) (d : ℚ) (sr nc : Nat)
    (rm : Bool) (bad : StreamSample) (post : List StreamSample)
    {key : String} {blob : Nat} {e : PyErr}
    (hkey : findAudioKey bad = some (key, blob))
    (herr : dec blob = Except.error e) :
    ∀ (pre : List StreamSample) (outs : List OutSample),
      decode_audiosignal dec d sr nc rm pre = (outs, none) →
      (recognizedStreaming e = true →
          decode_audiosignal dec d sr nc rm (pre ++ bad :: post)
            = (outs ++ (decode_audiosignal dec d sr nc rm post).1,
               (decode_audiosignal dec d sr nc rm post).2))
      ∧ (recognizedStreaming e = false →
          decode_audiosignal dec d sr nc rm (pre ++ bad :: post) = (outs, some e)) := by
  intro pre
  induction pre with
  | nil =>
    intro outs hpre
    rw [decode_audiosignal.eq_1] at hpre
    injection hpre with h1 h2
    subst h1
    have hstep : ∀ (r : List StreamSample),
        decode_audiosignal dec d sr nc rm (bad :: r)
          = (if recognizedStreaming e = true then decode_audiosignal dec d sr nc rm r
             else ([], some e)) := by
      intro r
      rw [decode_audiosignal.eq_2, hkey]
      dsimp only
      rw [herr]
    constructor
    · intro hrec
      rw [List.nil_append, hstep, if_pos hrec, List.nil_append]
    · intro hrec
      rw [List.nil_append, hstep, hrec]
      simp
  | cons x rest ih =>
    intro outs hpre
    rw [decode_audiosignal.eq_2] at hpre
    rw [List.cons_append, decode_audiosignal.eq_2]
    rcases hk : findAudioKey x with - | ⟨k2, b2⟩
    · rw [hk] at hpre
      dsimp only at hpre ⊢
      exact ih outs hpre
    · rw [hk] at hpre
      dsimp only at hpre ⊢
      rcases hdb : dec b2 with e2 | sigs
      · rw [hdb] at hpre
        dsimp only at hpre ⊢
        rcases Bool.eq_false_or_eq_true (recognizedStreaming e2) with hr2 | hr2
        · rw [if_pos hr2] at hpre
          rw [if_pos hr2]
          exact ih outs hpre
        · rw [if_neg (by simp [hr2])] at hpre
          injection hpre with h1 h2
          exact Option.noConfusion h2
      · rw [hdb] at hpre
        dsimp only at hpre ⊢
        rcases hdr : decode_audiosignal dec d sr nc rm rest with ⟨ro, rr⟩
        rw [hdr] at hpre
        dsimp only at hpre
        injection hpre with h1 h2
        subst h2
        have ih2 := ih ro hdr
        constructor
        · intro hrec
          rw [ih2.1 hrec]
          dsimp only
          rw [← h1, ← List.append_assoc]
        · intro hrec
          rw [ih2.2 hrec]
          dsimp only
          rw [← h1]

/-- Claim C7 (amended): in the offline loader, exactly the failures the
except clause recognizes — libsndfile errors (corrupt stream) and
RuntimeErrors whose message marks the tensor-shape mismatch or an empty
file — are caught and recovered locally by silence substitution, and every
other exception from the excerpt search propagates; in the streaming
decoder the caught classes additionally include ValueErrors and the
oversized-array marker ("array is too big"), the failing entry is skipped
with the records before and after it preserved, and every unrecognized
exception terminates the stream with the records already yielded. -/
theorem claim_C7 :
    (∀ (L : AudioLoader) (w : World) (st : RandomState) (a : LoaderArgs)
        (info : Item) (si ii : Nat) (st1 : RandomState) (e : PyErr),
        L.resolve w st a = Except.ok (info, si, ii, st1) →
        info.path ≠ "none" → a.offset = none →
        w.excerpt info.path a.duration st1 a.loudness_cutoff = Except.error e →
        (recognizedOffline e = false → L.call w st a = Except.error e)
        ∧ (recognizedOffline e = true → ∀ s stf, L.call w st a = Except.ok (s, stf) →
            s.signal = (Signal.zeros a.duration a.sample_rate a.num_channels).copyMeta info
              ∧ s.path = info.path))
    ∧ (∀ (dec : Nat → Except PyErr (List Signal)) (d : ℚ) (sr nc : Nat) (rm : Bool)
        (bad : StreamSample) (post : List StreamSample) (key : String) (blob : Nat) (e : PyErr),
        findAudioKey bad = some (key, blob) → dec blob = Except.error e →
        ∀ (pre : List StreamSample) (outs : List OutSample),
          decode_audiosignal dec d sr nc rm pre = (outs, none) →
          (recognizedStreaming e = true →
              decode_audiosignal dec d sr nc rm (pre ++ bad :: post)
                = (outs ++ (decode_audiosignal dec d sr nc rm post).1,
                   (decode_audiosignal dec d sr nc rm post).2))
          ∧ (recognizedStreaming e = false →
              decode_audiosignal dec d sr nc rm (pre ++ bad :: post) = (outs, some e))) :=
  ⟨fun L w st a info si ii st1 e hres hpath hoff herr =>
      call_excerpt_error L w st a hres hpath hoff herr,
   fun dec d sr nc rm bad post key blob e hkey herr =>
      decodeStream_mid dec d sr nc rm bad post hkey herr⟩

/-- Claim C7 counterexample: the oversized-array ValueError
("array is too big...") is outside the claimed recognized class — corrupt
stream, empty file, tensor-shape mismatch — yet the streaming decoder
catches it and skips the entry instead of propagating: the stream over a
failing entry followed by a healthy one yields the healthy record and no
exception. -/
theorem claim_C7_counterexample :
    claimedRecognizedC7 c7BigErr = false
    ∧ recognizedStreaming c7BigErr = true
    ∧ decode_audiosignal c7Dec 1 4 1 false [c7BadEntry, c7GoodEntry]
        = ([{ meta := [("shard/ok.json", 3)]
              signal := { rate := 4, length := 4, data := [[1, 1, 1, 1]] } }], none) := by
  refine ⟨by decide, by decide, ?_⟩
  with_unfolding_all rfl

/-- Witness for C7: the offline part at a loader whose excerpt search raises
an unrecognized RuntimeError, and the streaming part at the oversized-array
entry followed by a healthy entry. -/
theorem claim_C7_witness :
    ((recognizedOffline (PyErr.runtimeError "missing") = false →
        (mkLoader [("s", [{ path := "other.wav" }])] false 0).call demoWorld (random_state 0)
            { sample_rate := 4, duration := 1, source_idx := some 0, item_idx := some 0 }
          = Except.error (PyErr.runtimeError "missing"))
      ∧ (recognizedOffline (PyErr.runtimeError "missing") = true → ∀ s stf,
          (mkLoader [("s", [{ path := "other.wav" }])] false 0).call demoWorld (random_state 0)
              { sample_rate := 4, duration := 1, source_idx := some 0, item_idx := some 0 }
            = Except.ok (s, stf) →
          s.signal = (Signal.zeros 1 4 1).copyMeta { path := "other.wav" }
            ∧ s.path = Item.path { path := "other.wav" }))
    ∧ ((recognizedStreaming c7BigErr = true →
          decode_audiosignal c7Dec 1 4 1 false ([] ++ c7BadEntry :: [c7GoodEntry])
            = ([] ++ (decode_audiosignal c7Dec 1 4 1 false [c7GoodEntry]).1,
               (decode_audiosignal c7Dec 1 4 1 false [c7GoodEntry]).2))
      ∧ (recognizedStreaming c7BigErr = false →
          decode_audiosignal c7Dec 1 4 1 false ([] ++ c7BadEntry :: [c7GoodEntry])
            = ([], some c7BigErr))) :=
  ⟨claim_C7.1 (mkLoader [("s", [{ path := "other.wav" }])] false 0) demoWorld (random_state 0)
      { sample_rate := 4, duration := 1, source_idx := some 0, item_idx := some 0 }
      { path := "other.wav" } 0 0 (random_state 0) (PyErr.runtimeError "missing")
      (by with_unfolding_all rfl) (by decide) rfl (by with_unfolding_all rfl),
   claim_C7.2 c7Dec 1 4 1 false c7BadEntry [c7GoodEntry] "shard/track.wav" 0 c7BigErr
      (by with_unfolding_all rfl) (by with_unfolding_all rfl) [] []
      (by with_unfolding_all rfl)⟩

/-- Bridging `List.getD` to `List.get?`. -/
theorem getD_eq_get? (l : List α) (n : Nat) (d : α) : l.getD n d = (l.get? n).getD d := by
  simp [List.getD_eq_getElem?_getD, List.get?_eq_getElem?]

/-- Python `insert` grows the list by one when the position is in range. -/
theorem pyInsert_length (n : Nat) (a : α) (l : List α) (h : n ≤ l.length) :
    (pyInsert n a l).length = l.length + 1 := by
  simp [pyInsert]
  omega

/-- Python `insert` leaves positions before the insertion point unchanged. -/
theorem pyInsert_get_lt (n : Nat) (a : α) (l : List α) (j : Nat)
    (hj : j < n) (hn : n ≤ l.length) : (pyInsert n a l).get? j = l.get? j := by
  unfold pyInsert
  rw [List.get?_append (by simp [List.length_take]; omega)]
  exact List.get?_take hj

/-- Python `insert` places the new element at the insertion position. -/
theorem pyInsert_get_self (n : Nat) (a : α) (l : List α) (hn : n ≤ l.length) :
    (pyInsert n a l).get? n = some a := by
  unfold pyInsert
  rw [List.get?_append_right (by simp [List.length_take])]
  have h0 : n - (l.take n).length = 0 := by simp [List.length_take]; omega
  rw [h0]
  rfl

/-- Invariant of the `align_lists` loop under a reflexive matcher: the loop
terminates with its fuel (the initial reference length) exactly spent, the
reference catalog is never mutated, the catalog count is preserved, every
catalog reaches at least the reference length, and every position below the
reference length is settled: its entries are sentinels or match the
reference entry there. -/
theorem alignLoop_inv (matcher : String → String → Bool)
    (hrefl : ∀ s, matcher s s = true) (r : Nat) (ref0 : List Item) :
    ∀ (fuel i : Nat) (state : List (List Item)),
      i + fuel = ref0.length →
      state.getD r [] = ref0 →
      (∀ l ∈ state, i ≤ l.length) →
      (∀ j, j < i → settledAt matcher ref0 j state) →
      ∃ res, alignLoop matcher r fuel i state = some res ∧
        res.getD r [] = ref0 ∧ res.length = state.length ∧
        (∀ l ∈ res, ref0.length ≤ l.length) ∧
        (∀ j, j < ref0.length → settledAt matcher ref0 j res) := by
  intro fuel
  induction fuel with
  | zero =>
    intro i state hfuel hr hlen hset
    refine ⟨state, ?_, hr, rfl, ?_, ?_⟩
    · rw [alignLoop.eq_1, hr, if_neg (by omega)]
    · intro l hl
      have := hlen l hl
      omega
    · intro j hj
      exact hset j (by omega)
  | succ fuel ih =>
    intro i state hfuel hr hlen hset
    have hi : i < ref0.length := by omega
    have hcond : i < (state.getD r []).length := by rw [hr]; exact hi
    have hr' : (alignInner matcher i ((state.getD r []).getD i sentinelItem) state).getD r []
        = ref0 := by
      rw [hr]
      rcases hgr : state.get? r with _ | lr
      · have hnil : state.getD r [] = [] := by rw [getD_eq_get?, hgr]; rfl
        rw [hnil] at hr
        rw [← hr] at hi
        simp at hi
      · have hlr : lr = ref0 := by
          have h2 := hr
          rw [getD_eq_get?, hgr] at h2
          exact h2
        have hmap : (alignInner matcher i (ref0.getD i sentinelItem) state).get? r =
            (state.get? r).map (fun l =>
              if l.length ≤ i then l ++ [sentinelItem]
              else if ¬ matcher ((l.getD i sentinelItem).path) ((ref0.getD i sentinelItem).path) then
                pyInsert i sentinelItem l
              else l) := by
          simp [alignInner, List.get?_map]
        rw [getD_eq_get?, hmap, hgr, hlr]
        have hx : ¬ ref0.length ≤ i := by omega
        simp only [Option.map_some', Option.getD_some]
        rw [if_neg hx, if_neg (not_not_intro (hrefl _))]
    have hlen' : ∀ l' ∈ alignInner matcher i ((state.getD r []).getD i sentinelItem) state,
        i + 1 ≤ l'.length := by
      intro l' hl'
      rw [hr] at hl'
      simp only [alignInner, List.mem_map] at hl'
      obtain ⟨l, hl, rfl⟩ := hl'
      have hli := hlen l hl
      by_cases hc1 : l.length ≤ i
      · rw [if_pos hc1]
        simp
        omega
      · rw [if_neg hc1]
        by_cases hc2 : ¬ matcher ((l.getD i sentinelItem).path) ((ref0.getD i sentinelItem).path) = true
        · rw [if_pos hc2, pyInsert_length _ _ _ (by omega)]
          omega
        · rw [if_neg hc2]
          omega
    have hset' : ∀ j, j < i + 1 →
        settledAt matcher ref0 j (alignInner matcher i ((state.getD r []).getD i sentinelItem) state) := by
      intro j hj l' hl' e he
      rw [hr] at hl' 
      simp only [alignInner, List.mem_map] at hl'
      obtain ⟨l, hl, rfl⟩ := hl'
      have hli := hlen l hl
      replace he : (if l.length ≤ i then l ++ [sentinelItem]
          else if ¬ matcher ((l.getD i sentinelItem).path) ((ref0.getD i sentinelItem).path) then
            pyInsert i sentinelItem l
          else l).get? j = some e := he
      rcases Nat.lt_succ_iff_lt_or_eq.mp hj with hji | rfl
      · have hkeep : (if l.length ≤ i then l ++ [sentinelItem]
            else if ¬ matcher ((l.getD i sentinelItem).path) ((ref0.getD i sentinelItem).path) then
              pyInsert i sentinelItem l
            else l).get? j = l.get? j := by
          by_cases hc1 : l.length ≤ i
          · rw [if_pos hc1]
            exact List.get?_append (by omega)
          · rw [if_neg hc1]
            by_cases hc2 : ¬ matcher ((l.getD i sentinelItem).path) ((ref0.getD i sentinelItem).path) = true
            · rw [if_pos hc2]
              exact pyInsert_get_lt _ _ _ _ hji (by omega)
            · rw [if_neg hc2]
        rw [hkeep] at he
        exact hset j hji l hl e he
      · by_cases hc1 : l.length ≤ j
        · rw [if_pos hc1] at he
          have hleq : l.length = j := by omega
          rw [List.get?_append_right (by omega)] at he
          rw [hleq, Nat.sub_self] at he
          cases he
          left
          rfl
        · rw [if_neg hc1] at he
          by_cases hc2 : matcher ((l.getD j sentinelItem).path) ((ref0.getD j sentinelItem).path) = true
          · rw [if_neg (not_not_intro hc2)] at he
            right
            have hge : l.getD j sentinelItem = e := by rw [getD_eq_get?, he]; rfl
            rw [← hge]
            exact hc2
          · rw [if_pos hc2, pyInsert_get_self _ _ _ (by omega)] at he
            cases he
            left
            rfl
    obtain ⟨res, hres, h1, h2, h3, h4⟩ := ih (i + 1)
      (alignInner matcher i ((state.getD r []).getD i sentinelItem) state)
      (by omega) hr' hlen' hset'
    refine ⟨res, ?_, h1, ?_, h3, h4⟩
    · rw [alignLoop.eq_2, if_pos hcond]
      exact hres
    · rw [h2]
      simp [alignInner]

/-- Claim C3 (amended): for every catalog list and every reflexive,
symmetric, transitive matcher, `align_lists` terminates and returns the
reference catalog (the first-longest, at `np.argmax` of the lengths)
unchanged, preserves the number of catalogs, makes every catalog at least as
long as the reference, and at every position below the reference length any
two non-sentinel entries match pairwise.  Positions at or past the reference
length carry no pairwise guarantee and the output lengths need not be equal:
each rejection inserts a sentinel and lengthens that catalog past the
reference. -/
theorem claim_C3 (lists : List (List Item)) (matcher : String → String → Bool)
    (hrefl : ∀ s, matcher s s = true)
    (hsymm : ∀ a b, matcher a b = true → matcher b a = true)
    (htrans : ∀ a b c, matcher a b = true → matcher b c = true → matcher a c = true) :
    ∃ res, align_lists lists matcher = some res ∧
      res.getD (pyArgmax (lists.map List.length)) [] =
        lists.getD (pyArgmax (lists.map List.length)) [] ∧
      res.length = lists.length ∧
      (∀ l ∈ res, (lists.getD (pyArgmax (lists.map List.length)) []).length ≤ l.length) ∧
      (∀ i, i < (lists.getD (pyArgmax (lists.map List.length)) []).length →
        ∀ l1 ∈ res, ∀ l2 ∈ res, ∀ e1 e2, l1.get? i = some e1 → l2.get? i = some e2 →
          e1.path ≠ "none" → e2.path ≠ "none" → matcher e1.path e2.path = true) := by
  obtain ⟨res, hres, h1, h2, h3, h4⟩ :=
    alignLoop_inv matcher hrefl (pyArgmax (lists.map List.length))
      (lists.getD (pyArgmax (lists.map List.length)) [])
      (lists.getD (pyArgmax (lists.map List.length)) []).length 0 lists
      (by omega) rfl (fun l _ => Nat.zero_le _)
      (fun j hj => absurd hj (Nat.not_lt_zero j))
  refine ⟨res, hres, h1, h2, h3, ?_⟩
  intro i hi l1 hl1 l2 hl2 e1 e2 he1 he2 hn1 hn2
  rcases h4 i hi l1 hl1 e1 he1 with h | hm1
  · exact absurd h hn1
  rcases h4 i hi l2 hl2 e2 he2 with h | hm2
  · exact absurd h hn2
  exact htrans _ _ _ hm1 (hsymm _ _ hm2)

/-- Claim C3 counterexample: on three two-item catalogs with pairwise
distinct parent directories, `align_lists` under the default parent-directory
matcher returns catalogs of lengths [2, 4, 4] — the rejected catalogs grow
past the reference instead of converging — so the claimed equal-length and
pairwise-matching property is false on the result. -/
theorem claim_C3_counterexample :
    (align_lists c3Lists default_matcher).map (c3ClaimHolds default_matcher) = some false ∧
    (align_lists c3Lists default_matcher).map (fun r => r.map List.length) = some [2, 4, 4] :=
  ⟨by with_unfolding_all rfl, by with_unfolding_all rfl⟩

/-- Witness for C3 at the concrete three-catalog input and the default
parent-directory matcher (reflexive, symmetric and transitive). -/
theorem claim_C3_witness :
    ∃ res, align_lists c3Lists default_matcher = some res ∧
      res.getD (pyArgmax (c3Lists.map List.length)) [] =
        c3Lists.getD (pyArgmax (c3Lists.map List.length)) [] ∧
      res.length = c3Lists.length ∧
      (∀ l ∈ res, (c3Lists.getD (pyArgmax (c3Lists.map List.length)) []).length ≤ l.length) ∧
      (∀ i, i < (c3Lists.getD (pyArgmax (c3Lists.map List.length)) []).length →
        ∀ l1 ∈ res, ∀ l2 ∈ res, ∀ e1 e2, l1.get? i = some e1 → l2.get? i = some e2 →
          e1.path ≠ "none" → e2.path ≠ "none" → default_matcher e1.path e2.path = true) :=
  claim_C3 c3Lists default_matcher
    (fun s => by simp [default_matcher])
    (fun a b h => by
      simp only [default_matcher, decide_eq_true_eq] at h ⊢
      exact h.symm)
    (fun a b c h1 h2 => by
      simp only [default_matcher, decide_eq_true_eq] at h1 h2 ⊢
      exact h1.trans h2)

/-- With an explicit `(source_idx, item_idx)` pair the selection step never
fails and echoes the explicit indices. -/
theorem resolve_explicit (L : AudioLoader) (w : World) (st : RandomState)
    (a : LoaderArgs) {si ii : Nat}
    (hsi : a.source_idx = some si) (hii : a.item_idx = some ii) :
    ∃ info, L.resolve w st a = Except.ok (info, si, ii, st) := by
  unfold AudioLoader.resolve
  rw [hsi, hii]
  dsimp only
  cases hl : L.audio_lists.get? si with
  | none => exact ⟨sentinelItem, rfl⟩
  | some cat =>
    dsimp only
    cases hc : cat.get? ii with
    | none => exact ⟨sentinelItem, rfl⟩
    | some it => exact ⟨it, rfl⟩

/-- Every call logged by the aligned `for key in keys[1:]` loop carries
kwargs pinned to the first sample's offset metadata and indices, and its
returned sample reports the first sample's `(source_idx, item_idx)`. -/
theorem dsLoop_aligned (w : World) (ds : AudioDataset) (first : Sample)
    (halign : ds.aligned = true) :
    ∀ (ks : List String) (curArgs : LoaderArgs) (st : RandomState)
      (lg : List (String × LoaderArgs × Sample)) (stf : RandomState),
      dsLoop w ds first curArgs st ks = Except.ok (lg, stf) →
      ∀ e ∈ lg,
        e.2.1.source_idx = some first.source_idx ∧
        e.2.1.item_idx = some first.item_idx ∧
        (∃ off, first.signal.getMeta "offset" = some (MetaVal.rat off) ∧
          e.2.1.offset = some off) ∧
        e.2.2.source_idx = first.source_idx ∧
        e.2.2.item_idx = first.item_idx := by
  intro ks
  induction ks with
  | nil =>
    intro curArgs st lg stf h
    unfold dsLoop at h
    injection h with h1
    injection h1 with h2 h3
    subst h2
    intro e he
    cases he
  | cons k ks ih =>
    intro curArgs st lg stf h
    unfold dsLoop at h
    cases hL : ds.loaderOf k with
    | error err => rw [hL, exBind_err] at h; cases h
    | ok L =>
      rw [hL, exBind_ok] at h
      dsimp only at h
      rw [if_pos halign] at h
      cases hm : first.signal.getMeta "offset" with
      | none => rw [hm] at h; dsimp only at h; rw [exBind_err] at h; cases h
      | some mv =>
        cases mv with
        | str sv => rw [hm] at h; dsimp only at h; rw [exBind_err] at h; cases h
        | rat off =>
          rw [hm] at h
          dsimp only at h
          rw [exBind_ok] at h
          cases hcall : L.call w st { curArgs with
              offset := some off
              source_idx := some first.source_idx
              item_idx := some first.item_idx } with
          | error err => rw [hcall, exBind_err] at h; cases h
          | ok p =>
            obtain ⟨s, st1⟩ := p
            rw [hcall, exBind_ok] at h
            dsimp only at h
            cases hrest : dsLoop w ds first { curArgs with
                offset := some off
                source_idx := some first.source_idx
                item_idx := some first.item_idx } st1 ks with
            | error err => rw [hrest, exBind_err] at h; cases h
            | ok q =>
              obtain ⟨rest, st2⟩ := q
              rw [hrest, exBind_ok] at h
              injection h with h1
              injection h1 with h2 h3
              subst h2
              intro e he
              rcases List.mem_cons.mp he with rfl | hmem
              · refine ⟨rfl, rfl, ⟨off, rfl, rfl⟩, ?_, ?_⟩
                · obtain ⟨info, hresolve⟩ := resolve_explicit L w st { curArgs with
                      offset := some off
                      source_idx := some first.source_idx
                      item_idx := some first.item_idx } rfl rfl
                  obtain ⟨_, _, hs1, hs2, _⟩ := call_shape L w st _ hresolve hcall
                  exact hs1
                · obtain ⟨info, hresolve⟩ := resolve_explicit L w st { curArgs with
                      offset := some off
                      source_idx := some first.source_idx
                      item_idx := some first.item_idx } rfl rfl
                  obtain ⟨_, _, hs1, hs2, _⟩ := call_shape L w st _ hresolve hcall
                  exact hs2
              · have hrec := ih _ st1 rest st2 hrest e hmem
                rw [hm] at hrec
                exact hrec

/-- Claim C4: for every dataset with `aligned = true` and every idx whose
`__getitem__` succeeds, the call log shows every loader after the first
invoked with `source_idx`/`item_idx` pinned to the first sample's values and
`offset` pinned to the offset recorded in the first sample's metadata, and
all later samples report the first sample's `(source_idx, item_idx)`. -/
theorem claim_C4 (ds : AudioDataset) (w : World) (idx : Nat)
    (item : DatasetItem) (lg : List (String × LoaderArgs × Sample))
    (halign : ds.aligned = true)
    (h : ds.getItemLog w idx = Except.ok (item, lg)) :
    ∃ k0 a0 s0 rest, lg = (k0, a0, s0) :: rest ∧
      ∀ e ∈ rest,
        e.2.1.source_idx = some s0.source_idx ∧
        e.2.1.item_idx = some s0.item_idx ∧
        (∃ off, s0.signal.getMeta "offset" = some (MetaVal.rat off) ∧
          e.2.1.offset = some off) ∧
        e.2.2.source_idx = s0.source_idx ∧
        e.2.2.item_idx = s0.item_idx := by
  unfold AudioDataset.getItemLog at h
  simp only [] at h
  rcases hks : (if ds.shuffle_loaders then
      shuffleList (random_state idx) (ds.loaders.map Prod.fst)
    else (ds.loaders.map Prod.fst, random_state idx)) with ⟨keys, st1⟩
  rw [hks] at h
  cases keys with
  | nil => cases h
  | cons k0 krest =>
    dsimp only at h
    cases hL0 : ds.loaderOf k0 with
    | error err => rw [hL0, exBind_err] at h; cases h
    | ok L0 =>
      rw [hL0, exBind_ok] at h
      cases hcall0 : L0.call w st1
          { sample_rate := ds.sample_rate
            duration := ds.duration
            loudness_cutoff := ds.loudness_cutoff
            num_channels := ds.num_channels
            global_idx := if ds.without_replacement then some idx else none } with
      | error err => rw [hcall0, exBind_err] at h; cases h
      | ok p =>
        obtain ⟨s0, st2⟩ := p
        rw [hcall0, exBind_ok] at h
        cases hloop : dsLoop w ds s0
            { sample_rate := ds.sample_rate
              duration := ds.duration
              loudness_cutoff := ds.loudness_cutoff
              num_channels := ds.num_channels
              global_idx := if ds.without_replacement then some idx else none } st2 krest with
        | error err => rw [hloop, exBind_err] at h; cases h
        | ok q =>
          obtain ⟨lgr, st3⟩ := q
          rw [hloop, exBind_ok] at h
          cases hsort : sortSamples (ds.loaders.map Prod.fst)
              ((k0, { sample_rate := ds.sample_rate
                      duration := ds.duration
                      loudness_cutoff := ds.loudness_cutoff
                      num_channels := ds.num_channels
                      global_idx := if ds.without_replacement then some idx else none }, s0) :: lgr) with
          | error err => rw [hsort, exBind_err] at h; cases h
          | ok samples =>
            rw [hsort, exBind_ok] at h
            injection h with h1
            injection h1 with h2 h3
            subst h3
            refine ⟨k0, _, s0, lgr, rfl, ?_⟩
            exact dsLoop_aligned w ds s0 halign krest _ st2 lgr st3 hloop

/-- Witness for C4 at the two-loader aligned demo dataset, idx 0: the drums
loader is invoked with offset 0 and both indices forced to 0, and its sample
reports the vocals sample's indices. -/
theorem claim_C4_witness :
    ∃ k0 a0 s0 rest, c4Log = (k0, a0, s0) :: rest ∧
      ∀ e ∈ rest,
        e.2.1.source_idx = some s0.source_idx ∧
        e.2.1.item_idx = some s0.item_idx ∧
        (∃ off, s0.signal.getMeta "offset" = some (MetaVal.rat off) ∧
          e.2.1.offset = some off) ∧
        e.2.2.source_idx = s0.source_idx ∧
        e.2.2.item_idx = s0.item_idx :=
  claim_C4 demoDataset demoWorld 0 c4Item c4Log rfl (by with_unfolding_all rfl)
